import Mathlib

/-!
Verification development for the Pile language implementation
(lexer.rs, parser.rs, compiler.rs, runtime.rs).

Each Rust source construct is shallowly embedded as an executable Lean
definition; theorems about these definitions settle the specification
claims.  Rust i64 values are modelled as unbounded Int (no claim in this
development exercises i64 overflow, whose behaviour is build-profile
dependent in Rust); f64 values are modelled as Lean Float (IEEE-754
binary64, the same format Rust uses).  Byte strings are modelled as
List Nat with each entry < 256.
-/

namespace Pile

/-- Span is the source position record of lexer.rs (line, col). -/
structure Span where
  line : Nat
  col : Nat
deriving Repr, DecidableEq

/-- FileSpan pairs a Span with a filename (lexer.rs). -/
structure FileSpan where
  filename : String
  line : Nat
  col : Nat
deriving Repr, DecidableEq

/-- Span::to_filespan from lexer.rs. -/
def Span.to_filespan (s : Span) (filename : String) : FileSpan :=
  { filename := filename, line := s.line, col := s.col }

/-- TokenKind from lexer.rs. -/
inductive TokenKind where
  | word
  | int
  | float
  | string
deriving Repr, DecidableEq

/-- Token from lexer.rs. -/
structure Token where
  value : String
  kind : TokenKind
  span : Span
deriving Repr, DecidableEq

/-- escape_char from lexer.rs: accepts the character after a backslash and
returns the corresponding escaped character. -/
def escape_char (c : Char) : Option Char :=
  match c with
  | 'n' => some '\n'
  | 'r' => some '\r'
  | 't' => some '\t'
  | '"' => some '"'
  | '0' => some (Char.ofNat 0)
  | _ => none

/-- Rust char::is_whitespace: the Unicode White_Space property,
enumerated by code point. -/
def rust_is_whitespace (c : Char) : Bool :=
  let n := c.toNat
  (9 ≤ n && n ≤ 13) || n = 32 || n = 133 || n = 160 || n = 5760 ||
  (8192 ≤ n && n ≤ 8202) || n = 8232 || n = 8233 || n = 8239 ||
  n = 8287 || n = 12288

/-- Token::is_int_start from lexer.rs: a digit, or a minus sign
immediately followed by a digit. -/
def is_int_start (target : Char) (next : Option Char) : Bool :=
  target.isDigit || (target = '-' && (next.map (fun c => c.isDigit)).getD false)

/-- Token::is_int from lexer.rs. -/
def is_int (target : Char) : Bool :=
  '0' ≤ target && target ≤ '9'

/-- Token::is_float_start from lexer.rs. -/
def is_float_start (target : Char) (next : Option Char) : Bool :=
  target.isDigit ||
    (target = '-' && (next.map (fun c => c.isDigit || c = '.')).getD false)

/-- Token::is_float from lexer.rs. -/
def is_float (target : Char) : Bool :=
  ('0' ≤ target && target ≤ '9') || target = '.'

/-- Token::is_word from lexer.rs: any ASCII character. -/
def is_word (target : Char) : Bool :=
  target.toNat < 128

/-- Token::is_string from lexer.rs. -/
def is_string (target : Char) : Bool :=
  target = '"'

/-- Token::is_char from lexer.rs. -/
def is_char (target : Char) : Bool :=
  target = '\''

/-- Token::is_newline from lexer.rs. -/
def is_newline (target : Char) : Bool :=
  target = '\n'

/-- Token::is_comment from lexer.rs. -/
def is_comment (target : Char) : Bool :=
  target = '#'

/-- One step of the lexer: either a token together with the rest of the
character stream and the updated cursor, a token error (lexer.rs throws,
printing a diagnostic with the given FileSpan and exiting the process),
or end of input. -/
inductive LexStep where
  | token (t : Token) (rest : List Char) (sp : Span)
  | error (fs : FileSpan) (msg : String)
  | eof
deriving Repr

/-- The newline, whitespace and comment arms of Lexer::next fused into
one cursor-advancing skip (the Rust while-let continues on these three
arms; the inComment flag is true while inside a `#` comment, whose
characters are consumed without advancing the column until the
terminating newline). -/
def skip_layout : List Char → Span → Bool → (List Char × Span)
  | [], sp, _ => ([], sp)
  | d :: rest, sp, true =>
      if is_newline d then skip_layout rest { line := sp.line + 1, col := 1 } false
      else skip_layout rest sp true
  | c :: rest, sp, false =>
      if is_newline c then skip_layout rest { line := sp.line + 1, col := 1 } false
      else if rust_is_whitespace c then
        skip_layout rest { sp with col := sp.col + 1 } false
      else if is_comment c then skip_layout rest sp true
      else (c :: rest, sp)

/-- Result of scanning the inside of a string literal. -/
inductive StrScan where
  | done (buf : String) (rest : List Char)
  | errUnterm (buf : String) (d : Char)
  | errEscape (esc : Char) (buf : String)
deriving Repr, DecidableEq

/-- The string-literal loop of Lexer::next: each iteration consumes one
character d; a quote terminates the literal; if the consumed character is
the last of the input the unterminated-literal error is raised; a
backslash consumes one more character and pushes its escape.  When the
stream is exhausted the Rust while-let loop simply ends and the token is
returned (the .done arm for the empty list). -/
def string_scan : List Char → String → StrScan
  | [], buf => .done buf []
  | d :: rest, buf =>
      if is_string d then .done buf rest
      else if rest.isEmpty then .errUnterm buf d
      else if d = '\\' then
        match rest with
        | e :: rest2 =>
            match escape_char e with
            | some c => string_scan rest2 (buf.push c)
            | none => .errEscape e buf
        | [] => .errUnterm buf d
      else string_scan rest (buf.push d)

/-- Result of scanning a numeric literal (the Rust loop peeks, so on a
normal break the offending character stays in the stream). -/
inductive NumScan where
  | done (buf : String) (isFloat : Bool) (rest : List Char)
  | errChar (d : Char) (buf : String)
deriving Repr, DecidableEq

/-- The integer-literal loop of Lexer::next: a dot promotes the literal
to a float; a non-digit non-dot non-whitespace character is a token
error; whitespace ends the literal. -/
def int_scan : List Char → String → Bool → NumScan
  | [], buf, isf => .done buf isf []
  | d :: rest, buf, isf =>
      if ¬ is_int d ∧ is_float d then int_scan rest (buf.push d) true
      else if ¬ is_int d then
        if ¬ rust_is_whitespace d then .errChar d buf
        else .done buf isf (d :: rest)
      else int_scan rest (buf.push d) isf

/-- The float-literal loop of Lexer::next (entered only for a minus sign
followed by a dot). -/
def float_scan : List Char → String → NumScan
  | [], buf => .done buf true []
  | d :: rest, buf =>
      if ¬ is_float d then
        if ¬ rust_is_whitespace d then .errChar d buf
        else .done buf true (d :: rest)
      else float_scan rest (buf.push d)

/-- The word loop of Lexer::next: consume every character up to the next
whitespace. -/
def word_scan : List Char → String → (String × List Char)
  | [], buf => (buf, [])
  | d :: rest, buf =>
      if rust_is_whitespace d then (buf, d :: rest)
      else word_scan rest (buf.push d)

/-- Lexer::next from lexer.rs, embedded over an explicit character list
and cursor.  Note that Rust's String::len counts UTF-8 bytes, which is
what String.utf8ByteSize computes. -/
def lexer_next (name : String) (input : List Char) (sp0 : Span) : LexStep :=
  match skip_layout input sp0 false with
  | ([], _) => .eof
  | (c :: rest, sp) =>
      if is_string c then
        match string_scan rest "" with
        | .done buf rest2 =>
            .token { value := buf, kind := .string,
                     span := { line := sp.line, col := sp.col } }
              rest2 { line := sp.line, col := sp.col + buf.utf8ByteSize + 2 }
        | .errUnterm _ _ =>
            .error { filename := name, line := sp.line, col := sp.col + 2 }
              "expected closing quotation mark for string literal"
        | .errEscape _ buf =>
            .error { filename := name, line := sp.line,
                     col := sp.col + buf.utf8ByteSize + 1 }
              "invalid escape character in string literal"
      else if is_char c then
        match rest with
        | [] => .eof
        | chr :: rest2 =>
            if chr = '\\' then
              match rest2 with
              | [] => .token { value := toString (92 : Int), kind := .int,
                               span := { line := sp.line, col := sp.col } } [] sp
              | esc :: rest3 =>
                  match escape_char esc with
                  | some c2 =>
                      .token { value := toString (c2.toNat : Int), kind := .int,
                               span := { line := sp.line, col := sp.col } } rest3 sp
                  | none =>
                      if ¬ rust_is_whitespace esc then
                        .token { value := toString (esc.toNat : Int), kind := .int,
                                 span := { line := sp.line, col := sp.col } } rest3 sp
                      else
                        .token { value := toString (92 : Int), kind := .int,
                                 span := { line := sp.line, col := sp.col } } rest3 sp
            else
              .token { value := toString (chr.toNat : Int), kind := .int,
                       span := { line := sp.line, col := sp.col } } rest2 sp
      else if is_int_start c rest.head? then
        match int_scan rest (String.singleton c) false with
        | .done buf isf rest2 =>
            .token { value := buf, kind := if isf then .float else .int,
                     span := { line := sp.line, col := sp.col } }
              rest2 { line := sp.line, col := sp.col + buf.utf8ByteSize }
        | .errChar _ buf =>
            .error { filename := name, line := sp.line,
                     col := sp.col + buf.utf8ByteSize }
              "invalid character found in integer/float literal"
      else if is_float_start c rest.head? then
        match float_scan rest (String.singleton c) with
        | .done buf _ rest2 =>
            .token { value := buf, kind := .float,
                     span := { line := sp.line, col := sp.col } }
              rest2 { line := sp.line, col := sp.col + buf.utf8ByteSize }
        | .errChar _ buf =>
            .error { filename := name, line := sp.line,
                     col := sp.col + buf.utf8ByteSize }
              "invalid character found in float literal"
      else if is_word c then
        let r := word_scan rest (String.singleton c)
        .token { value := r.1, kind := .word,
                 span := { line := sp.line, col := sp.col } }
          r.2 { line := sp.line, col := sp.col + r.1.utf8ByteSize }
      else
        .error { filename := name, line := sp.line, col := sp.col }
          "illegal character found in file"

/-! ## Parser (parser.rs) -/

/-- is_op from parser.rs (note: the source list has no `%`, `@` or `!`). -/
def is_op (value : String) : Bool :=
  value = "dup" || value = "drop" || value = "swap" || value = "over" ||
  value = "rot" || value = "trace" || value = "+" || value = "-" ||
  value = "*" || value = "/" || value = ">" || value = "<" || value = "=" ||
  value = ">=" || value = "<=" || value = "!=" || value = ">>" ||
  value = "<<" || value = "|" || value = "&" || value = "~" ||
  value = "**" || value = "?"

/-- is_reserved_word from parser.rs (note: the source list has no `for`). -/
def is_reserved_word (value : String) : Bool :=
  value = "if" || value = "as" || value = "loop" || value = "proc" ||
  value = "end" || value = "let" || value = "else" || value = "def" ||
  value = "return" || value = "continue" || value = "break" ||
  value = "true" || value = "false" || value = "nil" || value = "array" ||
  value = "import"

/-- is_valid_identifier from parser.rs.  Rust's char::is_alphanumeric is
the Unicode property; it is modelled here with the ASCII classifier
Char.isAlphanum (the two agree on all ASCII code points, and every
theorem below that characterises identifiers restricts to ASCII). -/
def is_valid_identifier (value : String) : Bool :=
  !((value.toList.head?.map (fun c => c.isDigit)).getD false)
  && value.toList.all (fun c => c.isAlphanum || c = '_')
  && !is_reserved_word value
  && !is_op value

/-- OpKind from parser.rs (Lean keywords renamed: Break/Continue/Return
become brk/cont/ret, True/False become tru/fls). -/
inductive OpKind where
  | add | sub | mul | div | mod | exp
  | gt | lt | eq | ge | le | ne
  | shl | shr | bor | band | bnot
  | swap | over | trace | dup | rot | drop
  | brk | cont | ret
  | tru | fls | nil
  | isNil | seqIndex | seqAssignAtIndex
deriving Repr, DecidableEq

/-- Node from parser.rs.  The f64 payload of FloatLit is a Lean Float. -/
inductive Node where
  | intLit (value : Int) (span : Span)
  | floatLit (value : Float) (span : Span)
  | stringLit (value : String) (span : Span)
  | proc (name : String) (body : List Node) (span : Span)
  | defN (name : String) (body : List Node) (span : Span)
  | ifN (thenB : List Node) (elseB : Option (List Node)) (span : Span)
  | loop (body : List Node) (span : Span)
  | array (body : List Node) (span : Span)
  | letN (name : String) (span : Span)
  | asLet (vars : List Token) (body : List Node) (span : Span)
  | importN (path : String) (span : Span)
  | forN (var : Token) (body : List Node) (span : Span)
  | operation (kind : OpKind) (span : Span)
  | symbol (name : String) (span : Span)
deriving Repr

/-- ParseError from parser.rs.  The outOfFuel variant is an artifact of
the fuel-based embedding of the parser's recursion; it is unreachable
whenever the fuel exceeds the token count. -/
inductive ParseError where
  | unexpectedToken (fs : FileSpan) (got : String) (expected : String)
  | unexpectedEOF (fs : FileSpan) (expected : String)
  | unterminatedBlock (fs : FileSpan) (kind : String)
  | unmatchedBlock (fs : FileSpan)
  | outOfFuel
deriving Repr, DecidableEq

/-- Decimal (optionally negated, optionally one fractional dot) string
to Float, mirroring what f64::from_str produces on the literal shapes
the lexer emits.  Malformed literals (which make the Rust source panic
through unwrap) are out of scope of every claim. -/
def float_of_string (s : String) : Float :=
  let neg := s.startsWith "-"
  let t := if neg then s.drop 1 else s
  let intPart := t.takeWhile (fun c => c ≠ '.')
  let fracPart := (t.dropWhile (fun c => c ≠ '.')).drop 1
  let digits := (intPart ++ fracPart).toList.filter Char.isDigit
  let mantissa := digits.foldl (fun a c => a * 10 + (c.toNat - 48)) 0
  let f := Float.ofScientific mantissa true (fracPart.toList.filter Char.isDigit).length
  if neg then -f else f

/-- Whether a token is the Word w (block terminators are matched only
when they appear as a Word — parser.rs matches on kind and value). -/
def Token.isWord (t : Token) (w : String) : Bool :=
  t.kind = .word && t.value = w

mutual

/-- Parser::parse_expr from parser.rs: literal tokens become literal
nodes, keyword words open blocks, operator words become Operation,
`end` at top level is UnmatchedBlock, everything else is Symbol. -/
def parse_expr (fuel : Nat) (name : String) (token : Token)
    (rest : List Token) (cur : Span) : Except ParseError (Node × List Token) :=
  match fuel with
  | 0 => .error .outOfFuel
  | fuel + 1 =>
    match token.kind with
    | .int => .ok (.intLit ((token.value.toInt?).getD 0) token.span, rest)
    | .float => .ok (.floatLit (float_of_string token.value) token.span, rest)
    | .string => .ok (.stringLit token.value token.span, rest)
    | .word =>
      if token.value = "proc" then parse_proc fuel name rest cur
      else if token.value = "def" then parse_def fuel name rest cur
      else if token.value = "let" then parse_let fuel name rest cur
      else if token.value = "as" then parse_aslet fuel name rest cur
      else if token.value = "if" then parse_if fuel name rest cur
      else if token.value = "loop" then parse_loop fuel name rest cur
      else if token.value = "array" then parse_array fuel name rest cur
      else if token.value = "import" then parse_import fuel name rest cur
      else if token.value = "for" then parse_for fuel name rest cur
      else if token.value = "end" then
        .error (.unmatchedBlock (cur.to_filespan name))
      else if token.value = "+" then .ok (.operation .add token.span, rest)
      else if token.value = "-" then .ok (.operation .sub token.span, rest)
      else if token.value = "*" then .ok (.operation .mul token.span, rest)
      else if token.value = "/" then .ok (.operation .div token.span, rest)
      else if token.value = "%" then .ok (.operation .mod token.span, rest)
      else if token.value = "**" then .ok (.operation .exp token.span, rest)
      else if token.value = "=" then .ok (.operation .eq token.span, rest)
      else if token.value = "!=" then .ok (.operation .ne token.span, rest)
      else if token.value = ">" then .ok (.operation .gt token.span, rest)
      else if token.value = "<" then .ok (.operation .lt token.span, rest)
      else if token.value = "<=" then .ok (.operation .le token.span, rest)
      else if token.value = ">=" then .ok (.operation .ge token.span, rest)
      else if token.value = "|" then .ok (.operation .bor token.span, rest)
      else if token.value = "&" then .ok (.operation .band token.span, rest)
      else if token.value = ">>" then .ok (.operation .shr token.span, rest)
      else if token.value = "<<" then .ok (.operation .shl token.span, rest)
      else if token.value = "~" then .ok (.operation .bnot token.span, rest)
      else if token.value = "dup" then .ok (.operation .dup token.span, rest)
      else if token.value = "drop" then .ok (.operation .drop token.span, rest)
      else if token.value = "swap" then .ok (.operation .swap token.span, rest)
      else if token.value = "over" then .ok (.operation .over token.span, rest)
      else if token.value = "rot" then .ok (.operation .rot token.span, rest)
      else if token.value = "trace" then .ok (.operation .trace token.span, rest)
      else if token.value = "break" then .ok (.operation .brk token.span, rest)
      else if token.value = "continue" then .ok (.operation .cont token.span, rest)
      else if token.value = "return" then .ok (.operation .ret token.span, rest)
      else if token.value = "true" then .ok (.operation .tru token.span, rest)
      else if token.value = "false" then .ok (.operation .fls token.span, rest)
      else if token.value = "nil" then .ok (.operation .nil token.span, rest)
      else if token.value = "?" then .ok (.operation .isNil token.span, rest)
      else if token.value = "@" then .ok (.operation .seqIndex token.span, rest)
      else if token.value = "!" then .ok (.operation .seqAssignAtIndex token.span, rest)
      else .ok (.symbol token.value token.span, rest)

/-- Parser::parse_proc: consume the name token (validated by
is_valid_identifier), then the body until the matching Word `end`. -/
def parse_proc (fuel : Nat) (name : String) (tokens : List Token)
    (cur : Span) : Except ParseError (Node × List Token) :=
  match fuel with
  | 0 => .error .outOfFuel
  | fuel + 1 =>
    match tokens with
    | [] => .error (.unexpectedEOF (cur.to_filespan name) "valid identifier")
    | procName :: rest =>
        if ¬ is_valid_identifier procName.value then
          .error (.unexpectedToken (procName.span.to_filespan name)
            procName.value "valid identifier")
        else
          parse_proc_body fuel name rest cur procName []

/-- The body loop of Parser::parse_proc. -/
def parse_proc_body (fuel : Nat) (name : String) (tokens : List Token)
    (cur : Span) (procName : Token) (body : List Node) :
    Except ParseError (Node × List Token) :=
  match fuel with
  | 0 => .error .outOfFuel
  | fuel + 1 =>
    match tokens with
    | [] => .error (.unterminatedBlock (procName.span.to_filespan name) "proc")
    | t :: ts =>
        if t.isWord "end" then
          .ok (.proc procName.value body procName.span, ts)
        else
          match parse_expr fuel name t ts cur with
          | .error e => .error e
          | .ok (node, rest) =>
              parse_proc_body fuel name rest cur procName (body ++ [node])

/-- Parser::parse_let. -/
def parse_let (fuel : Nat) (name : String) (tokens : List Token)
    (cur : Span) : Except ParseError (Node × List Token) :=
  match fuel with
  | 0 => .error .outOfFuel
  | _ + 1 =>
    match tokens with
    | [] => .error (.unexpectedEOF (cur.to_filespan name) "valid identifier")
    | variable_ :: rest =>
        if ¬ is_valid_identifier variable_.value then
          .error (.unexpectedToken (variable_.span.to_filespan name)
            variable_.value "valid identifier")
        else
          .ok (.letN variable_.value variable_.span, rest)

/-- The variable-list loop of Parser::parse_aslet: identifiers until the
Word `let` (each validated); hitting end of stream here simply ends the
loop and the body phase then reports the unterminated block. -/
def parse_aslet_vars (fuel : Nat) (name : String) (tokens : List Token)
    (cur : Span) (vars : List Token) : Except ParseError (Node × List Token) :=
  match fuel with
  | 0 => .error .outOfFuel
  | fuel + 1 =>
    match tokens with
    | [] => parse_aslet_body fuel name [] cur vars []
    | t :: ts =>
        if t.isWord "let" then parse_aslet_body fuel name ts cur vars []
        else if ¬ is_valid_identifier t.value then
          .error (.unexpectedToken (t.span.to_filespan name) t.value
            "valid identifier")
        else parse_aslet_vars fuel name ts cur (vars ++ [t])

/-- The body loop of Parser::parse_aslet. -/
def parse_aslet_body (fuel : Nat) (name : String) (tokens : List Token)
    (cur : Span) (vars : List Token) (body : List Node) :
    Except ParseError (Node × List Token) :=
  match fuel with
  | 0 => .error .outOfFuel
  | fuel + 1 =>
    match tokens with
    | [] => .error (.unterminatedBlock (cur.to_filespan name) "as..let")
    | t :: ts =>
        if t.isWord "end" then
          .ok (.asLet vars body t.span, ts)
        else
          match parse_expr fuel name t ts cur with
          | .error e => .error e
          | .ok (node, rest) =>
              parse_aslet_body fuel name rest cur vars (body ++ [node])

/-- Parser::parse_aslet. -/
def parse_aslet (fuel : Nat) (name : String) (tokens : List Token)
    (cur : Span) : Except ParseError (Node × List Token) :=
  match fuel with
  | 0 => .error .outOfFuel
  | fuel + 1 => parse_aslet_vars fuel name tokens cur []

/-- Parser::parse_def (its unterminated-block error names "proc",
faithfully to the source). -/
def parse_def (fuel : Nat) (name : String) (tokens : List Token)
    (cur : Span) : Except ParseError (Node × List Token) :=
  match fuel with
  | 0 => .error .outOfFuel
  | fuel + 1 =>
    match tokens with
    | [] => .error (.unexpectedEOF (cur.to_filespan name) "valid identifier")
    | defName :: rest =>
        if ¬ is_valid_identifier defName.value then
          .error (.unexpectedToken (defName.span.to_filespan name)
            defName.value "valid identifier")
        else
          parse_def_body fuel name rest cur defName []

/-- The body loop of Parser::parse_def. -/
def parse_def_body (fuel : Nat) (name : String) (tokens : List Token)
    (cur : Span) (defName : Token) (body : List Node) :
    Except ParseError (Node × List Token) :=
  match fuel with
  | 0 => .error .outOfFuel
  | fuel + 1 =>
    match tokens with
    | [] => .error (.unterminatedBlock (defName.span.to_filespan name) "proc")
    | t :: ts =>
        if t.isWord "end" then
          .ok (.defN defName.value body defName.span, ts)
        else
          match parse_expr fuel name t ts cur with
          | .error e => .error e
          | .ok (node, rest) =>
              parse_def_body fuel name rest cur defName (body ++ [node])

/-- The then-branch loop of Parser::parse_if. -/
def parse_if_body (fuel : Nat) (name : String) (tokens : List Token)
    (cur : Span) (ifBody : List Node) :
    Except ParseError (Node × List Token) :=
  match fuel with
  | 0 => .error .outOfFuel
  | fuel + 1 =>
    match tokens with
    | [] => .error (.unterminatedBlock (cur.to_filespan name) "if")
    | t :: ts =>
        if t.isWord "else" then parse_else_body fuel name ts cur ifBody t []
        else if t.isWord "end" then .ok (.ifN ifBody none t.span, ts)
        else
          match parse_expr fuel name t ts cur with
          | .error e => .error e
          | .ok (node, rest) =>
              parse_if_body fuel name rest cur (ifBody ++ [node])

/-- The else-branch loop of Parser::parse_if (elseTok is the `else`
token, whose span names the unterminated block). -/
def parse_else_body (fuel : Nat) (name : String) (tokens : List Token)
    (cur : Span) (ifBody : List Node) (elseTok : Token)
    (elseBlock : List Node) : Except ParseError (Node × List Token) :=
  match fuel with
  | 0 => .error .outOfFuel
  | fuel + 1 =>
    match tokens with
    | [] => .error (.unterminatedBlock (elseTok.span.to_filespan name) "else")
    | t :: ts =>
        if t.isWord "end" then
          .ok (.ifN ifBody (some elseBlock) t.span, ts)
        else
          match parse_expr fuel name t ts cur with
          | .error e => .error e
          | .ok (node, rest) =>
              parse_else_body fuel name rest cur ifBody elseTok
                (elseBlock ++ [node])

/-- Parser::parse_if. -/
def parse_if (fuel : Nat) (name : String) (tokens : List Token)
    (cur : Span) : Except ParseError (Node × List Token) :=
  match fuel with
  | 0 => .error .outOfFuel
  | fuel + 1 => parse_if_body fuel name tokens cur []

/-- The body loop of Parser::parse_loop. -/
def parse_loop_body (fuel : Nat) (name : String) (tokens : List Token)
    (cur : Span) (body : List Node) : Except ParseError (Node × List Token) :=
  match fuel with
  | 0 => .error .outOfFuel
  | fuel + 1 =>
    match tokens with
    | [] => .error (.unterminatedBlock (cur.to_filespan name) "loop")
    | t :: ts =>
        if t.isWord "end" then .ok (.loop body t.span, ts)
        else
          match parse_expr fuel name t ts cur with
          | .error e => .error e
          | .ok (node, rest) => parse_loop_body fuel name rest cur (body ++ [node])

/-- Parser::parse_loop. -/
def parse_loop (fuel : Nat) (name : String) (tokens : List Token)
    (cur : Span) : Except ParseError (Node × List Token) :=
  match fuel with
  | 0 => .error .outOfFuel
  | fuel + 1 => parse_loop_body fuel name tokens cur []

/-- The body loop of Parser::parse_array. -/
def parse_array_body (fuel : Nat) (name : String) (tokens : List Token)
    (cur : Span) (body : List Node) : Except ParseError (Node × List Token) :=
  match fuel with
  | 0 => .error .outOfFuel
  | fuel + 1 =>
    match tokens with
    | [] => .error (.unterminatedBlock (cur.to_filespan name) "array")
    | t :: ts =>
        if t.isWord "end" then .ok (.array body t.span, ts)
        else
          match parse_expr fuel name t ts cur with
          | .error e => .error e
          | .ok (node, rest) => parse_array_body fuel name rest cur (body ++ [node])

/-- Parser::parse_array. -/
def parse_array (fuel : Nat) (name : String) (tokens : List Token)
    (cur : Span) : Except ParseError (Node × List Token) :=
  match fuel with
  | 0 => .error .outOfFuel
  | fuel + 1 => parse_array_body fuel name tokens cur []

/-- Parser::parse_import: the next token must be a String. -/
def parse_import (fuel : Nat) (name : String) (tokens : List Token)
    (cur : Span) : Except ParseError (Node × List Token) :=
  match fuel with
  | 0 => .error .outOfFuel
  | _ + 1 =>
    match tokens with
    | [] => .error (.unexpectedEOF (cur.to_filespan name) "valid identifier")
    | t :: ts =>
        if t.kind ≠ .string then
          .error (.unexpectedToken (t.span.to_filespan name) t.value "string")
        else
          .ok (.importN t.value t.span, ts)

/-- Parser::parse_for: identifier then body until `end`. -/
def parse_for (fuel : Nat) (name : String) (tokens : List Token)
    (cur : Span) : Except ParseError (Node × List Token) :=
  match fuel with
  | 0 => .error .outOfFuel
  | fuel + 1 =>
    match tokens with
    | [] => .error (.unexpectedEOF (cur.to_filespan name) "valid identifier")
    | variable_ :: rest =>
        if ¬ is_valid_identifier variable_.value then
          .error (.unexpectedToken (variable_.span.to_filespan name)
            variable_.value "valid identifier")
        else
          parse_for_body fuel name rest cur variable_ []

/-- The body loop of Parser::parse_for. -/
def parse_for_body (fuel : Nat) (name : String) (tokens : List Token)
    (cur : Span) (variable_ : Token) (body : List Node) :
    Except ParseError (Node × List Token) :=
  match fuel with
  | 0 => .error .outOfFuel
  | fuel + 1 =>
    match tokens with
    | [] => .error (.unterminatedBlock (cur.to_filespan name) "for")
    | t :: ts =>
        if t.isWord "end" then .ok (.forN variable_ body t.span, ts)
        else
          match parse_expr fuel name t ts cur with
          | .error e => .error e
          | .ok (node, rest) =>
              parse_for_body fuel name rest cur variable_ (body ++ [node])

end

/-- Parser::parse from parser.rs: repeatedly set current_span to the
next top-level token's span and parse an expression. -/
def parse_prog (fuel : Nat) (name : String) (tokens : List Token) :
    Except ParseError (List Node) :=
  match fuel with
  | 0 => .error .outOfFuel
  | fuel + 1 =>
    match tokens with
    | [] => .ok []
    | t :: ts =>
        match parse_expr fuel name t ts t.span with
        | .error e => .error e
        | .ok (node, rest) =>
            match parse_prog fuel name rest with
            | .error e => .error e
            | .ok nodes => .ok (node :: nodes)

/-! ## Compiler (compiler.rs) -/

/-- Builtin from compiler.rs (the bytecode compiler's builtin set). -/
inductive CBuiltin where
  | print | println | eprint | eprintln
  | open_ | write | read | input | inputln | exit
  | chr | ord | len | typeof_
  | toint | tofloat | tostring | tobool
deriving Repr, DecidableEq

/-- Op from compiler.rs. -/
inductive Op where
  | add | sub | mul | div | mod | exp
  | gt | lt | eq | ge | le | ne
  | shl | shr | bor | band | bnot
  | isNil | index | assignAtIndex
  | trace
deriving Repr, DecidableEq

/-- Op::from_opkind from compiler.rs.  The OpKinds that compile_block
handles in earlier match arms (stack ops, control ops and literal ops)
hit the source's unreachable! panic here; they are mapped to none. -/
def Op.from_opkind : OpKind → Option Op
  | .add => some .add
  | .sub => some .sub
  | .mul => some .mul
  | .div => some .div
  | .mod => some .mod
  | .exp => some .exp
  | .gt => some .gt
  | .lt => some .lt
  | .eq => some .eq
  | .ge => some .ge
  | .le => some .le
  | .ne => some .ne
  | .shl => some .shl
  | .shr => some .shr
  | .bor => some .bor
  | .band => some .band
  | .bnot => some .bnot
  | .isNil => some .isNil
  | .seqIndex => some .index
  | .seqAssignAtIndex => some .assignAtIndex
  | .trace => some .trace
  | _ => none

/-- Value from compiler.rs: the operand-stack element of the bytecode
machine; strings, arrays and opaque data are table ids. -/
inductive Value where
  | nil
  | bool (b : Bool)
  | int (n : Int)
  | float (f : Float)
  | string (id : Nat)
  | array (id : Nat)
  | data (id : Nat)
deriving Repr

/-- Instr from compiler.rs. -/
inductive Instr where
  | execBuiltin (b : CBuiltin)
  | jump (addr : Nat)
  | jumpIfNot (addr : Nat)
  | execOp (op : Op)
  | push (v : Value)
  | beginScope
  | endScope
  | setVariable (name : String)
  | setDefinition (name : String)
  | pushBinding (name : String)
  | pushString (s : String)
  | beginArray
  | endArray
  | ret
  | call (addr : Nat)
  | swap
  | over
  | duplicate
  | drop
  | rotate
  | setSpan (id : Nat)
deriving Repr

/-- Compiler state from compiler.rs: filename, span table, instruction
vector, the procedure name-to-address map and the loop stack.  The
HashMap is modelled as an association list where insertion conses and
lookup takes the first match (equivalent for the insert/get usage of the
source).  Vec-based stacks are modelled with the list head as the
Vec's last (top) element. -/
structure CState where
  filename : String
  spans : List FileSpan
  instructions : List Instr
  procs : List (String × Nat)
  loopStack : List (Nat × List Nat)

/-- Compiler::new. -/
def CState.new : CState :=
  { filename := "", spans := [], instructions := [], procs := [], loopStack := [] }

/-- Compiler::add_span: append the FileSpan, returning its index. -/
def add_span (s : CState) (fs : FileSpan) : Nat × CState :=
  (s.spans.length, { s with spans := s.spans ++ [fs] })

/-- self.instructions.push(i). -/
def push_instr (s : CState) (i : Instr) : CState :=
  { s with instructions := s.instructions ++ [i] }

/-- HashMap::get on the association-list model. -/
def procs_get (procs : List (String × Nat)) (name : String) : Option Nat :=
  (procs.find? (fun p => p.1 = name)).map (fun p => p.2)

/-- The builtin-name match inside compile_block's Symbol arm
(compiler.rs lines 467-487). -/
def builtin_of_name (name : String) : Option CBuiltin :=
  if name = "print" then some .print
  else if name = "println" then some .println
  else if name = "eprint" then some .eprint
  else if name = "eprintln" then some .eprintln
  else if name = "input" then some .input
  else if name = "inputln" then some .inputln
  else if name = "open" then some .open_
  else if name = "write" then some .write
  else if name = "read" then some .read
  else if name = "exit" then some .exit
  else if name = "chr" then some .chr
  else if name = "ord" then some .ord
  else if name = "len" then some .len
  else if name = "typeof" then some .typeof_
  else if name = "toint" then some .toint
  else if name = "tofloat" then some .tofloat
  else if name = "tostring" then some .tostring
  else if name = "tobool" then some .tobool
  else none

/-- The AsLet arm of Compiler::compile_block (compiler.rs lines
490-497): for each declared variable in reverse order, add a span and
emit SetVariable.  Note that the source's pattern Node::AsLet(variables,
..) discards the block's body and span. -/
def compile_aslet_vars (vars : List Token) (s : CState) : CState :=
  match vars with
  | [] => s
  | var :: rest =>
      let p := add_span s (var.span.to_filespan s.filename)
      let s1 := push_instr p.2 (.setSpan p.1)
      compile_aslet_vars rest (push_instr s1 (.setVariable var.value))

/-- The break-backpatch loop of the Loop arm: each pending break address
is overwritten with Jump(loop_end). -/
def patch_breaks (breaks : List Nat) (loopEnd : Nat) (instrs : List Instr) :
    List Instr :=
  match breaks with
  | [] => instrs
  | a :: rest => patch_breaks rest loopEnd (instrs.set a (.jump loopEnd))

mutual

/-- One statement of Compiler::compile_block (compiler.rs lines
304-499), arm for arm and in the source's match order. -/
def compile_node (stmt : Node) (s : CState) : CState :=
  match stmt with
  | .importN name _span =>
      -- try_parse_from_file lexes and parses the imported file, which is
      -- external input; no claim exercises Import, so the imported file is
      -- modelled as the empty program and the recursive
      -- compile_block(.., true) emits only the scope pair.
      let prev := s.filename
      let s1 := { s with filename := name }
      let s2 := push_instr (push_instr s1 .beginScope) .endScope
      { s2 with filename := prev }
  | .proc name block span =>
      let p := add_span s (span.to_filespan s.filename)
      let s1 := push_instr p.2 (.setSpan p.1)
      let backpatch := s1.instructions.length
      let s2 := push_instr s1 (.jump 0)
      let procAddr := s2.instructions.length
      let s3 := { s2 with procs := (name, procAddr) :: s2.procs }
      -- compile_block(block, true) inlined (scope pair around the
      -- statement fold) so that the mutual recursion stays structural
      let s4 := push_instr (compile_nodes block (push_instr s3 .beginScope)) .endScope
      let s5 := push_instr s4 .ret
      { s5 with
        instructions := s5.instructions.set backpatch
          (.jump s5.instructions.length) }
  | .ifN thenBlock elseBlock span =>
      let p := add_span s (span.to_filespan s.filename)
      let s1 := push_instr p.2 (.setSpan p.1)
      let condBackpatch := s1.instructions.length
      let s2 := push_instr s1 (.jumpIfNot 0)
      let s3 := compile_nodes thenBlock s2   -- compile_block(.., false)
      let escapeBackpatch := s3.instructions.length
      let s4 := push_instr s3 (.jump 0)
      let elseAddr := s4.instructions.length
      let s5 := match elseBlock with
                | some els => compile_nodes els s4   -- compile_block(.., false)
                | none => s4
      let endAddr := s5.instructions.length
      let s6 := { s5 with
        instructions := s5.instructions.set escapeBackpatch (.jump endAddr) }
      { s6 with
        instructions := s6.instructions.set condBackpatch (.jumpIfNot elseAddr) }
  | .loop block span =>
      let p := add_span s (span.to_filespan s.filename)
      let s1 := push_instr p.2 (.setSpan p.1)
      let loopStart := s1.instructions.length
      let s2 := { s1 with loopStack := (loopStart, []) :: s1.loopStack }
      let s3 := compile_nodes block s2   -- compile_block(.., false)
      let s4 := push_instr s3 (.jump loopStart)
      match s4.loopStack with
      | [] => s4   -- unreachable: the frame pushed above is still present
      | (_, breaks) :: restStack =>
          let loopEnd := s4.instructions.length
          { s4 with
            loopStack := restStack,
            instructions := patch_breaks breaks loopEnd s4.instructions }
  | .defN name block span =>
      let p := add_span s (span.to_filespan s.filename)
      let s1 := push_instr p.2 (.setSpan p.1)
      let s2 := compile_nodes block s1   -- compile_block(.., false)
      push_instr s2 (.setDefinition name)
  | .array block span =>
      let p := add_span s (span.to_filespan s.filename)
      let s1 := push_instr p.2 (.setSpan p.1)
      let s2 := push_instr s1 .beginArray
      let s3 := compile_nodes block s2   -- compile_block(.., false)
      push_instr s3 .endArray
  | .operation .brk span =>
      let p := add_span s (span.to_filespan s.filename)
      match p.2.loopStack with
      | [] => p.2
      | (start, breaks) :: restStack =>
          let s1 := push_instr p.2 (.setSpan p.1)
          let breakPos := s1.instructions.length
          let s2 := push_instr s1 (.jump 0)
          { s2 with loopStack := (start, breaks ++ [breakPos]) :: restStack }
  | .operation .cont span =>
      let p := add_span s (span.to_filespan s.filename)
      match p.2.loopStack with
      | [] => p.2
      | (loopStart, _) :: _ =>
          let s1 := push_instr p.2 (.setSpan p.1)
          push_instr s1 (.jump loopStart)
  | .operation .ret span =>
      let p := add_span s (span.to_filespan s.filename)
      let s1 := push_instr p.2 (.setSpan p.1)
      push_instr (push_instr s1 .endScope) .ret
  | .operation .tru span =>
      let p := add_span s (span.to_filespan s.filename)
      let s1 := push_instr p.2 (.setSpan p.1)
      push_instr s1 (.push (.bool true))
  | .operation .fls span =>
      let p := add_span s (span.to_filespan s.filename)
      let s1 := push_instr p.2 (.setSpan p.1)
      push_instr s1 (.push (.bool false))
  | .operation .nil span =>
      let p := add_span s (span.to_filespan s.filename)
      let s1 := push_instr p.2 (.setSpan p.1)
      push_instr s1 (.push .nil)
  | .operation .swap span =>
      let p := add_span s (span.to_filespan s.filename)
      let s1 := push_instr p.2 (.setSpan p.1)
      push_instr s1 .swap
  | .operation .over span =>
      let p := add_span s (span.to_filespan s.filename)
      let s1 := push_instr p.2 (.setSpan p.1)
      push_instr s1 .over
  | .operation .dup span =>
      let p := add_span s (span.to_filespan s.filename)
      let s1 := push_instr p.2 (.setSpan p.1)
      push_instr s1 .duplicate
  | .operation .drop span =>
      let p := add_span s (span.to_filespan s.filename)
      let s1 := push_instr p.2 (.setSpan p.1)
      push_instr s1 .drop
  | .operation .rot span =>
      let p := add_span s (span.to_filespan s.filename)
      let s1 := push_instr p.2 (.setSpan p.1)
      push_instr s1 .rotate
  | .operation kind span =>
      let p := add_span s (span.to_filespan s.filename)
      let s1 := push_instr p.2 (.setSpan p.1)
      match Op.from_opkind kind with
      | some op => push_instr s1 (.execOp op)
      | none => s1   -- unreachable: covered by the earlier Operation arms
  | .intLit value span =>
      let p := add_span s (span.to_filespan s.filename)
      let s1 := push_instr p.2 (.setSpan p.1)
      push_instr s1 (.push (.int value))
  | .floatLit value span =>
      let p := add_span s (span.to_filespan s.filename)
      let s1 := push_instr p.2 (.setSpan p.1)
      push_instr s1 (.push (.float value))
  | .stringLit value span =>
      let p := add_span s (span.to_filespan s.filename)
      let s1 := push_instr p.2 (.setSpan p.1)
      push_instr s1 (.pushString value)
  | .letN name span =>
      let p := add_span s (span.to_filespan s.filename)
      let s1 := push_instr p.2 (.setSpan p.1)
      push_instr s1 (.setVariable name)
  | .symbol name span =>
      let p := add_span s (span.to_filespan s.filename)
      let s1 := push_instr p.2 (.setSpan p.1)
      match procs_get s1.procs name with
      | some addr => push_instr s1 (.call addr)
      | none =>
          match builtin_of_name name with
          | some b => push_instr s1 (.execBuiltin b)
          | none => push_instr s1 (.pushBinding name)
  | .asLet vs _block _span =>
      compile_aslet_vars vs.reverse s
  | .forN _ _ _ => s   -- source: unimplemented!() panic; no claim builds For

/-- The statement fold of Compiler::compile_block. -/
def compile_nodes (block : List Node) (s : CState) : CState :=
  match block with
  | [] => s
  | stmt :: rest => compile_nodes rest (compile_node stmt s)

end

/-- Compiler::compile_block: optionally wrap the block in
BeginScope/EndScope, compiling each statement in order.  (At the
recursive call sites inside the mutual block above this definition is
inlined so that the recursion stays structural.) -/
def compile_block (block : List Node) (isScoped : Bool) (s : CState) : CState :=
  let s0 := if isScoped then push_instr s .beginScope else s
  let s1 := compile_nodes block s0
  if isScoped then push_instr s1 .endScope else s1

/-- Compiler::compile: set the filename and compile the whole program as
one scoped block, returning instructions and the span table. -/
def compile (input : List Node) (filename : String) :
    List Instr × List FileSpan :=
  let s := compile_block input true { CState.new with filename := filename }
  (s.instructions, s.spans)

/-! ## Tree-walking runtime (runtime.rs)

The runtime manipulates i64, f64 and a byte buffer.  Bytes are List Nat
entries (each < 256 by construction).  VecDeque push_front/pop_front is
modelled with the list head as the deque front (the top of the operand
stack); Vec push/last/pop is modelled with the list head as the Vec's
last element. -/

/-- STR_CAPACITY from runtime.rs: 100 kb of strings. -/
def STR_CAPACITY : Nat := 100 * 1024

/-- MAX_RECURSION_DEPTH from runtime.rs. -/
def MAX_RECURSION_DEPTH : Nat := 256

/-- Data from runtime.rs: the tree-walking runtime's stack element. -/
inductive Data where
  | array (id : Nat)
  | string (ptr size : Nat)
  | int (n : Int)
  | float (f : Float)
  | bool (b : Bool)
  | nil
deriving Repr

/-- Data::format from runtime.rs. -/
def Data.format : Data → String
  | .string _ _ => "string"
  | .int _ => "int"
  | .float _ => "float"
  | .bool _ => "bool"
  | .nil => "nil"
  | .array _ => "array"

/-- RuntimeError from runtime.rs (all sixteen variants; note the enum
has no DivisionByZero variant). -/
inductive RuntimeError where
  | procedureError (call : FileSpan) (inner : RuntimeError)
  | recursionDepthOverflow (fs : FileSpan)
  | importError (fs : FileSpan) (path : String)
  | stackUnderflow (fs : FileSpan) (op : String) (n : Nat)
  | unexpectedType (fs : FileSpan) (op wanted got : String)
  | invalidWord (fs : FileSpan) (w : String)
  | valueError (fs : FileSpan) (op wanted got : String)
  | procRedefinition (fs : FileSpan) (name : String)
  | defRedefinition (fs : FileSpan) (name : String)
  | emptyDefinition (fs : FileSpan) (name : String)
  | unboundVariable (fs : FileSpan) (name : String)
  | readMemoryOutOfBounds (fs : FileSpan) (addr : Nat)
  | writeMemoryOutOfBounds (fs : FileSpan) (what : String) (addr : Nat)
  | arrayOutOfBounds (fs : FileSpan) (index : Int) (len : Nat)
  | stringOutOfBounds (fs : FileSpan) (index : Int) (len : Nat)
deriving Repr, DecidableEq

/-- BinaryOp from runtime.rs. -/
inductive BinaryOp where
  | add | sub | mul | div | mod | exp
  | gt | lt | eq | ge | le | ne
  | shl | shr | bor | band
deriving Repr, DecidableEq

/-- The Display impl of BinaryOp (runtime.rs lines 83-104; faithfully to
the source, Shl displays as the text of the shift-right operator and Shr
as the shift-left one). -/
def BinaryOp.display : BinaryOp → String
  | .add => "+"
  | .sub => "-"
  | .mul => "*"
  | .div => "/"
  | .mod => "%"
  | .exp => "**"
  | .gt => ">"
  | .lt => "<"
  | .eq => "="
  | .ge => ">="
  | .le => "<="
  | .ne => "!="
  | .shl => ">>"
  | .shr => "<<"
  | .bor => "|"
  | .band => "&"

/-- UnaryOp from runtime.rs. -/
inductive UnaryOp where
  | bnot
deriving Repr, DecidableEq

/-- Display of UnaryOp. -/
def UnaryOp.display : UnaryOp → String
  | .bnot => "~"

/-- Builtin from runtime.rs (the tree-walking runtime's builtin set,
distinct from the bytecode compiler's). -/
inductive RBuiltin where
  | print | println | eprintln | eprint
  | input | inputln | exit
  | tostring | toint | tofloat | typeof_
  | chr | len
deriving Repr, DecidableEq

/-- Display of Builtin (runtime.rs lines 134-152). -/
def RBuiltin.display : RBuiltin → String
  | .print => "print"
  | .println => "println"
  | .eprintln => "eprintln"
  | .eprint => "eprint"
  | .input => "input"
  | .inputln => "inputln"
  | .exit => "exit"
  | .tostring => "tostring"
  | .toint => "toint"
  | .tofloat => "tofloat"
  | .typeof_ => "typeof"
  | .chr => "chr"
  | .len => "len"

/-- Procedure from runtime.rs: a body and the FileSpan of the
definition. -/
structure Procedure where
  body : List Node
  span : FileSpan

/-- Namespace from runtime.rs (HashMaps as association lists where
insertion conses and lookup takes the first match; locals is the scope
Vec with the list head as the innermost scope). -/
structure RNamespace where
  procs : List (String × Procedure)
  defs : List (String × Data)
  globals : List (String × Data)
  locals : List (List (String × Data))

/-- UTF-8 encoding of one character (what Rust's str::as_bytes exposes
per char). -/
def utf8_char (c : Char) : List Nat :=
  let n := c.toNat
  if n < 128 then [n]
  else if n < 2048 then [192 + n / 64, 128 + n % 64]
  else if n < 65536 then [224 + n / 4096, 128 + (n / 64) % 64, 128 + n % 64]
  else [240 + n / 262144, 128 + (n / 4096) % 64, 128 + (n / 64) % 64, 128 + n % 64]

/-- str::as_bytes: the UTF-8 byte sequence of a string. -/
def str_bytes (s : String) : List Nat :=
  (s.toList.map utf8_char).flatten

/-- str::trim (both ends, Rust whitespace). -/
def rust_trim (l : List Char) : List Char :=
  ((l.dropWhile rust_is_whitespace).reverse.dropWhile rust_is_whitespace).reverse

/-- i64::from_str over a byte slice: optional sign, at least one ASCII
digit, and the value must fit in i64 (overflow is a parse error). -/
def parse_i64_bytes (bs : List Nat) : Option Int :=
  let p : Bool × List Nat :=
    match bs with
    | 43 :: rest => (false, rest)
    | 45 :: rest => (true, rest)
    | _ => (false, bs)
  let ds := p.2
  if ds.isEmpty then none
  else if ds.all (fun b => 48 ≤ b && b ≤ 57) then
    let v : Int := ds.foldl (fun a b => a * 10 + ((b : Int) - 48)) 0
    let v := if p.1 then -v else v
    if -(2 ^ 63) ≤ v ∧ v ≤ 2 ^ 63 - 1 then some v else none
  else none

/-- f64::from_str over a byte slice, for the plain decimal shapes the
language produces ([sign] digits [. digits]).  Rust additionally accepts
exponent/inf/nan forms; no claim exercises them. -/
def parse_f64_bytes (bs : List Nat) : Option Float :=
  let p : Bool × List Nat :=
    match bs with
    | 43 :: rest => (false, rest)
    | 45 :: rest => (true, rest)
    | _ => (false, bs)
  let ds := p.2
  let intPart := ds.takeWhile (fun b => b ≠ 46)
  let rest := ds.dropWhile (fun b => b ≠ 46)
  let fracPart := rest.drop 1
  let okShape :=
    !intPart.isEmpty && intPart.all (fun b => 48 ≤ b && b ≤ 57) &&
    (rest.isEmpty || (rest.head? = some 46 && !fracPart.isEmpty &&
      fracPart.all (fun b => 48 ≤ b && b ≤ 57)))
  if okShape then
    let mantissa := (intPart ++ fracPart).foldl (fun a b => a * 10 + (b - 48)) 0
    let f := Float.ofScientific mantissa true fracPart.length
    some (if p.1 then -f else f)
  else none

/-- Rust's saturating f64-to-i64 `as` cast (NaN to 0).  This is an
executable approximation used only in arms no claim evaluates. -/
def f64_as_i64 (f : Float) : Int :=
  if f.isNaN then 0
  else if f ≤ (-9223372036854775808.0 : Float) then -(2 ^ 63)
  else if (9223372036854775808.0 : Float) ≤ f then 2 ^ 63 - 1
  else if f < 0 then -(((-f).toUInt64.toNat : Int)) else ((f.toUInt64.toNat : Int))

/-- i64 left shift (release-profile semantics: the shift amount is
masked to six bits; the truncation of the product to 64 bits is not
modelled, consistently with the unbounded-Int model of i64). -/
def i64_shl (a b : Int) : Int := a * 2 ^ (Int.emod b 64).toNat

/-- i64 arithmetic right shift (floor division by the power of two). -/
def i64_shr (a b : Int) : Int := Int.fdiv a (2 ^ (Int.emod b 64).toNat)

/-- The low 64 bits of an integer, as the two's-complement bit pattern. -/
def to_u64 (a : Int) : Nat := (Int.emod a (2 ^ 64)).toNat

/-- Reinterpret a 64-bit pattern as a signed i64. -/
def from_u64 (n : Nat) : Int := if n < 2 ^ 63 then (n : Int) else (n : Int) - 2 ^ 64

/-- i64 bitwise or. -/
def i64_bor (a b : Int) : Int := from_u64 (Nat.lor (to_u64 a) (to_u64 b))

/-- i64 bitwise and. -/
def i64_band (a b : Int) : Int := from_u64 (Nat.land (to_u64 a) (to_u64 b))

/-- i64::pow with the exponent cast to u32 (n2 as u32 truncates to 32
bits; overflow of the power itself follows the unbounded-Int model). -/
def i64_pow (a b : Int) : Int := a ^ (Int.emod b (2 ^ 32)).toNat

/-- i32 wrap-around for `n as i32` (the exit-code cast). -/
def i32_wrap (n : Int) : Int := Int.emod (n + 2 ^ 31) (2 ^ 32) - 2 ^ 31

/-- u8 truncation for `c as u8`. -/
def u8_wrap (n : Int) : Nat := (Int.emod n 256).toNat

/-- f64 % (fmod): remainder with the sign of the dividend.  Executable
approximation (never evaluated by a claim). -/
def f64_rem (a b : Float) : Float :=
  let q := a / b
  a - b * (if q < 0 then q.ceil else q.floor)

/-- The runtime state of runtime.rs (struct Runtime).  string_buffer
holds the written prefix of the fixed zero-initialised byte array; the
write pointer string_ptr always equals its length, so it is derived
rather than duplicated.  The standard input is modelled as a character
list; stdout/stderr collect written bytes. -/
structure RState where
  filename : String
  root_filename : String
  string_buffer : List Nat
  arrays : List (Nat × List Data)
  current_array : Nat
  stack : List Data
  ns : RNamespace
  loop_break : Bool
  loop_continue : Bool
  proc_return : Bool
  recursion_depth : Nat
  stdin : List Char
  stdout : List Nat
  stderr : List Nat

/-- The string_ptr field of runtime.rs, derived from the written
prefix. -/
def RState.string_ptr (st : RState) : Nat := st.string_buffer.length

/-- Runtime::new (with empty modelled stdin). -/
def RState.new (filename : String) : RState :=
  { filename := filename, root_filename := filename, string_buffer := [],
    arrays := [], current_array := 0, stack := [],
    ns := { procs := [], defs := [], globals := [], locals := [] },
    loop_break := false, loop_continue := false, proc_return := false,
    recursion_depth := 0, stdin := [], stdout := [], stderr := [] }

/-- Execution outcome: ok continues; err is a returned RuntimeError;
panicked is a Rust panic (process abort, e.g. integer division by
zero); fatal is error::fatal (diagnostic + exit 1); exited is
std::process::exit; fuelOut is the artifact of the fuel-based embedding
of the source's unbounded loops and recursion. -/
inductive RStatus where
  | ok
  | err (e : RuntimeError)
  | panicked (msg : String)
  | fatal (msg : String)
  | exited (code : Int)
  | fuelOut
deriving Repr, DecidableEq

/-- Runtime::pop (VecDeque::pop_front). -/
def RState.pop (st : RState) : Option (Data × RState) :=
  match st.stack with
  | [] => none
  | d :: rest => some (d, { st with stack := rest })

/-- Runtime::peek (VecDeque::get nth from the front). -/
def RState.peek (st : RState) (nth : Nat) : Option Data :=
  st.stack.get? nth

/-- stack.push_front. -/
def RState.push (st : RState) (d : Data) : RState :=
  { st with stack := d :: st.stack }

/-- Runtime::push_int. -/
def push_int (st : RState) (n : Int) : RState := st.push (.int n)

/-- Runtime::push_float. -/
def push_float (st : RState) (n : Float) : RState := st.push (.float n)

/-- Runtime::push_bool. -/
def push_bool (st : RState) (b : Bool) : RState := st.push (.bool b)

/-- Runtime::push_nil. -/
def push_nil (st : RState) : RState := st.push .nil

/-- Runtime::read_string: the size bytes at ptr
(from_utf8(..).unwrap() decoding is kept at the byte level; the panic on
an invalid UTF-8 slice is not modelled — no claim constructs one). -/
def read_string (st : RState) (ptr size : Nat) : List Nat :=
  (List.range size).map (fun i => st.string_buffer.getD (ptr + i) 0)

/-- Runtime::store_string: bump-allocate bytes at the write pointer.
When the end of the allocation would exceed STR_CAPACITY the source
calls error::fatal("string buffer overflow"), which terminates the
process. -/
def store_string (st : RState) (bytes : List Nat) :
    (RState × RStatus) × Nat × Nat :=
  let size := bytes.length
  let ptr := st.string_ptr
  if ptr + size > STR_CAPACITY then
    ((st, .fatal "string buffer overflow"), ptr, size)
  else
    ((({ st with string_buffer := st.string_buffer ++ bytes }), .ok), ptr, size)

/-- Runtime::push_string: allocate and push the handle. -/
def push_string (st : RState) (bytes : List Nat) : RState × RStatus :=
  match store_string st bytes with
  | ((st1, .ok), ptr, size) => (st1.push (.string ptr size), .ok)
  | ((st1, bad), _, _) => (st1, bad)

/-- HashMap::get over the association-list model. -/
def alist_get {α : Type} (l : List (String × α)) (k : String) : Option α :=
  (l.find? (fun p => p.1 = k)).map (fun p => p.2)

/-- HashMap::insert over the association-list model (cons; the first
match wins on lookup, so this replaces). -/
def alist_insert {α : Type} (l : List (String × α)) (k : String) (v : α) :
    List (String × α) :=
  (k, v) :: l

/-- arrays.get(&id).unwrap(): ids are only produced by allocation, so
the unwrap cannot fail; modelled with an empty default. -/
def load_array (st : RState) (id : Nat) : List Data :=
  ((st.arrays.find? (fun p => p.1 = id)).map (fun p => p.2)).getD []

/-- arrays.insert(id, arr). -/
def arrays_insert (st : RState) (id : Nat) (arr : List Data) : RState :=
  { st with arrays := (id, arr) :: st.arrays }

/-- Runtime::alloc_array. -/
def alloc_array (st : RState) (arr : List Data) : Nat × RState :=
  let id := st.current_array
  (id, { (arrays_insert st id arr) with current_array := st.current_array + 1 })

/-- Runtime::push_array. -/
def push_array (st : RState) (arr : List Data) : RState :=
  let p := alloc_array st arr
  p.2.push (.array p.1)

/-- Append bytes to the modelled stdout. -/
def write_out (st : RState) (bytes : List Nat) : RState :=
  { st with stdout := st.stdout ++ bytes }

/-- Append bytes to the modelled stderr. -/
def write_err (st : RState) (bytes : List Nat) : RState :=
  { st with stderr := st.stderr ++ bytes }

/-- Uppercase hexadecimal rendering ({:X}). -/
def hex_upper (n : Nat) : String :=
  String.mk ((Nat.toDigits 16 n).map Char.toUpper)

/-- The shared rendering of the four print builtins (runtime.rs Println,
EPrintln, EPrint and Print arms render String/Int/Float/Bool/Nil the
same way and reject Array).  Lean's Float rendering approximates Rust's
f64 Display; no claim prints a float.  Returns none on the unprintable
tag. -/
def render_data (st : RState) (a : Data) : Option (List Nat) :=
  match a with
  | .string ptr size => some (read_string st ptr size)
  | .int n => some (str_bytes (toString n))
  | .float n => some (str_bytes (toString n))
  | .bool b => some (str_bytes (toString b))
  | .nil => some (str_bytes "nil")
  | .array _ => none

/-- One of the four print builtins: pop, render, write to the requested
stream with or without a trailing newline. -/
def run_print (s : Span) (st : RState) (opName : String) (toStderr nl : Bool) :
    RState × RStatus :=
  match st.pop with
  | some (a, st1) =>
      match render_data st1 a with
      | some bytes =>
          let out := bytes ++ (if nl then [10] else [])
          (if toStderr then write_err st1 out else write_out st1 out, .ok)
      | none =>
          (st1, .err (.unexpectedType (s.to_filespan st1.filename) opName
            "string, int, float, bool or nil" a.format))
  | none =>
      (st, .err (.stackUnderflow (s.to_filespan st.filename) opName 1))

/-- Runtime::builtin from runtime.rs (lines 302-605). -/
def builtin (s : Span) (x : RBuiltin) (st : RState) : RState × RStatus :=
  match x with
  | .println => run_print s st "println" false true
  | .eprintln => run_print s st "eprintln" true true
  | .eprint => run_print s st "eprint" true false
  | .print => run_print s st "print" false false
  | .inputln =>
      -- stdin().read_line: take one line (and its newline) off the modelled
      -- stdin, trim it and push; the Err branch (push_int -1) is an I/O
      -- failure the pure model cannot produce.
      let line := st.stdin.takeWhile (fun c => c ≠ '\n')
      let rest := st.stdin.dropWhile (fun c => c ≠ '\n')
      let st1 := { st with stdin := rest.drop 1 }
      push_string st1 (((rust_trim line).map utf8_char).flatten)
  | .input =>
      -- stdin().read_to_string: everything that remains.
      let st1 := { st with stdin := [] }
      push_string st1 ((st.stdin.map utf8_char).flatten)
  | .exit =>
      match st.pop with
      | some (.int n, st1) => (st1, .exited (i32_wrap n))
      | some (a, st1) =>
          (st1, .err (.unexpectedType (s.to_filespan st1.filename) "exit"
            "int" a.format))
      | none => (st, .exited 0)
  | .toint =>
      match st.pop with
      | some (.string ptr size, st1) =>
          match parse_i64_bytes (read_string st1 ptr size) with
          | some n => (push_int st1 n, .ok)
          | none => (push_nil st1, .ok)
      | some (.float n, st1) => (push_int st1 (f64_as_i64 n), .ok)
      | some (.bool n, st1) => (push_int st1 (if n then 1 else 0), .ok)
      | some (.int n, st1) => (push_int st1 n, .ok)
      | some (a, st1) =>
          (st1, .err (.unexpectedType (s.to_filespan st1.filename) "toint"
            "int, float or bool" a.format))
      | none =>
          (st, .err (.stackUnderflow (s.to_filespan st.filename)
            RBuiltin.toint.display 1))
  | .tofloat =>
      match st.pop with
      | some (.string ptr size, st1) =>
          match parse_f64_bytes (read_string st1 ptr size) with
          | some n => (push_float st1 n, .ok)
          | none => (push_nil st1, .ok)
      | some (.int n, st1) => (push_float st1 (Float.ofInt n), .ok)
      | some (.bool n, st1) =>
          (push_float st1 (if n then (1 : Float) else 0), .ok)
      | some (.float n, st1) => (push_float st1 n, .ok)
      | some (a, st1) =>
          (st1, .err (.unexpectedType (s.to_filespan st1.filename) "tofloat"
            "int, float or bool" a.format))
      | none =>
          (st, .err (.stackUnderflow (s.to_filespan st.filename)
            RBuiltin.tofloat.display 1))
  | .tostring =>
      match st.pop with
      | some (.string ptr size, st1) => (st1.push (.string ptr size), .ok)
      | some (.int i, st1) => push_string st1 (str_bytes (toString i))
      | some (.float f, st1) => push_string st1 (str_bytes (toString f))
      | some (.bool b, st1) => push_string st1 (str_bytes (toString b))
      | some (.nil, st1) => push_string st1 (str_bytes "nil")
      | some (a, st1) =>
          (st1, .err (.unexpectedType (s.to_filespan st1.filename) "tostring"
            "string, int, float, bool or nil" a.format))
      | none =>
          (st, .err (.stackUnderflow (s.to_filespan st.filename)
            RBuiltin.tostring.display 1))
  | .typeof_ =>
      match st.pop with
      | some (a, st1) => push_string st1 (str_bytes a.format)
      | none =>
          (st, .err (.stackUnderflow (s.to_filespan st.filename)
            RBuiltin.typeof_.display 1))
  | .chr =>
      match st.pop with
      | some (.int c, st1) =>
          let c1 := if c > 255 then 0 else c
          let c2 := if c1 < 0 then 255 else c1
          push_string st1 [u8_wrap c2]
      | some (a, st1) =>
          (st1, .err (.unexpectedType (s.to_filespan st1.filename) "chr"
            "int" a.format))
      | none =>
          (st, .err (.stackUnderflow (s.to_filespan st.filename) "chr" 1))
  | .len =>
      match st.pop with
      | some (.string _ size, st1) => (push_int st1 (size : Int), .ok)
      | some (.array id, st1) =>
          (push_int st1 ((load_array st1 id).length : Int), .ok)
      | some (a, st1) =>
          (st1, .err (.unexpectedType (s.to_filespan st1.filename) "len"
            "string or array" a.format))
      | none =>
          (st, .err (.stackUnderflow (s.to_filespan st.filename) "len" 1))

/-- Runtime::unop from runtime.rs (lines 607-632). -/
def unop (s : Span) (x : UnaryOp) (st : RState) : RState × RStatus :=
  match st.pop with
  | some (.int n, st1) =>
      match x with
      | .bnot => (push_int st1 (-n - 1), .ok)
  | some (.bool n, st1) =>
      match x with
      | .bnot => (push_bool st1 (!n), .ok)
  | some (.float n, st1) =>
      match x with
      | .bnot => (push_float st1 (Float.ofInt (-(f64_as_i64 n) - 1)), .ok)
  | some (a, st1) =>
      (st1, .err (.unexpectedType (s.to_filespan st1.filename) x.display
        "int, float or bool" a.format))
  | none =>
      (st, .err (.stackUnderflow (s.to_filespan st.filename) x.display 1))

/-- Runtime::binop from runtime.rs (lines 634-750): pop the right
operand a, then the left operand b, and dispatch on (b, a).  Integer
division and remainder by zero hit Rust's i64 `/` and `%`, whose
behaviour is a process-aborting panic (there is no zero-divisor check in
the source). -/
def binop (s : Span) (x : BinaryOp) (st : RState) : RState × RStatus :=
  match st.pop with
  | none =>
      (st, .err (.stackUnderflow (s.to_filespan st.filename) x.display 2))
  | some (a, st1) =>
    match st1.pop with
    | none =>
        (st1, .err (.stackUnderflow (s.to_filespan st1.filename) x.display 2))
    | some (b, st2) =>
      match b, a with
      | .int n1, .int n2 =>
          match x with
          | .add => (push_int st2 (n1 + n2), .ok)
          | .sub => (push_int st2 (n1 - n2), .ok)
          | .mul => (push_int st2 (n1 * n2), .ok)
          | .div =>
              if n2 = 0 then (st2, .panicked "attempt to divide by zero")
              else (push_int st2 (Int.tdiv n1 n2), .ok)
          | .mod =>
              if n2 = 0 then
                (st2, .panicked
                  "attempt to calculate the remainder with a divisor of zero")
              else (push_int st2 (Int.tmod n1 n2), .ok)
          | .exp => (push_int st2 (i64_pow n1 n2), .ok)
          | .eq => (push_bool st2 (n1 = n2), .ok)
          | .ne => (push_bool st2 (n1 ≠ n2), .ok)
          | .lt => (push_bool st2 (n1 < n2), .ok)
          | .gt => (push_bool st2 (n1 > n2), .ok)
          | .le => (push_bool st2 (n1 ≤ n2), .ok)
          | .ge => (push_bool st2 (n1 ≥ n2), .ok)
          | .shl => (push_int st2 (i64_shl n1 n2), .ok)
          | .shr => (push_int st2 (i64_shr n1 n2), .ok)
          | .bor => (push_int st2 (i64_bor n1 n2), .ok)
          | .band => (push_int st2 (i64_band n1 n2), .ok)
      | .float n1, .float n2 =>
          match x with
          | .add => (push_float st2 (n1 + n2), .ok)
          | .sub => (push_float st2 (n1 - n2), .ok)
          | .mul => (push_float st2 (n1 * n2), .ok)
          | .div => (push_float st2 (n1 / n2), .ok)
          | .mod => (push_float st2 (f64_rem n1 n2), .ok)
          | .exp => (push_float st2 (Float.pow n1 n2), .ok)
          | .eq => (push_bool st2 (n1 == n2), .ok)
          | .ne => (push_bool st2 (!(n1 == n2)), .ok)
          | .lt => (push_bool st2 (n1 < n2), .ok)
          | .gt => (push_bool st2 (n1 > n2), .ok)
          | .le => (push_bool st2 (n1 ≤ n2), .ok)
          | .ge => (push_bool st2 (n1 ≥ n2), .ok)
          | _ =>
              (st2, .err (.unexpectedType (s.to_filespan st2.filename)
                x.display "ints, bools, strings or arrays" "(float, float)"))
      | .nil, .nil =>
          (st2, .err (.unexpectedType (s.to_filespan st2.filename) x.display
            "ints, floats, bools, strings or arrays" "(nil, nil)"))
      | .string ptr1 size1, .string ptr2 size2 =>
          let s1 := read_string st2 ptr1 size1
          let s2 := read_string st2 ptr2 size2
          match x with
          | .add => push_string st2 (s1 ++ s2)
          | .eq => (push_bool st2 (s1 = s2), .ok)
          | .ne => (push_bool st2 (s1 ≠ s2), .ok)
          | _ =>
              (st2, .err (.unexpectedType (s.to_filespan st2.filename)
                x.display "ints, floats, bools or arrays" "(string, string)"))
      | .bool b1, .bool b2 =>
          match x with
          | .eq => (push_bool st2 (b1 = b2), .ok)
          | .ne => (push_bool st2 (b1 ≠ b2), .ok)
          | .bor => (push_bool st2 (b1 || b2), .ok)
          | .band => (push_bool st2 (b1 && b2), .ok)
          | _ =>
              (st2, .err (.unexpectedType (s.to_filespan st2.filename)
                x.display "ints, floats, strings or arrays" "(bool, bool)"))
      | .array id1, .array id2 =>
          match x with
          | .add => (push_array st2 (load_array st2 id1 ++ load_array st2 id2), .ok)
          | _ =>
              (st2, .err (.unexpectedType (s.to_filespan st2.filename)
                x.display "ints, floats, bools or strings" "(array, array)"))
      | l, r =>
          (st2, .err (.unexpectedType (s.to_filespan st2.filename) x.display
            "any other type"
            ("(" ++ l.format ++ ", " ++ r.format ++ ")")))

/-- The Operation arm of Runtime::run_node (lines 801-982): dispatch on
OpKind.  Entirely non-recursive. -/
def run_operation (op : OpKind) (s : Span) (st : RState) : RState × RStatus :=
  match op with
  | .add => binop s .add st
  | .sub => binop s .sub st
  | .mul => binop s .mul st
  | .div => binop s .div st
  | .mod => binop s .mod st
  | .exp => binop s .exp st
  | .gt => binop s .gt st
  | .lt => binop s .lt st
  | .eq => binop s .eq st
  | .ge => binop s .ge st
  | .le => binop s .le st
  | .ne => binop s .ne st
  | .shl => binop s .shl st
  | .shr => binop s .shr st
  | .bor => binop s .bor st
  | .band => binop s .band st
  | .bnot => unop s .bnot st
  | .swap =>
      match st.stack with
      | x :: y :: rest => ({ st with stack := y :: x :: rest }, .ok)
      | _ =>
          (match st.pop with
           | some (_, st1) =>
              (st1, .err (.stackUnderflow (s.to_filespan st1.filename) "swap" 2))
           | none =>
              (st, .err (.stackUnderflow (s.to_filespan st.filename) "swap" 2)))
  | .over =>
      match st.peek 1 with
      | some x => (st.push x, .ok)
      | none =>
          (st, .err (.stackUnderflow (s.to_filespan st.filename) "over" 2))
  | .drop =>
      match st.pop with
      | some (_, st1) => (st1, .ok)
      | none =>
          (st, .err (.stackUnderflow (s.to_filespan st.filename) "drop" 1))
  | .dup =>
      match st.peek 0 with
      | some a => (st.push a, .ok)
      | none =>
          (st, .err (.stackUnderflow (s.to_filespan st.filename) "dup" 1))
  | .rot =>
      match st.stack with
      | a :: b :: c :: rest => ({ st with stack := c :: a :: b :: rest }, .ok)
      | _ =>
          -- the source pops up to three values before reporting underflow
          (match st.stack with
           | _ :: _ :: [] =>
              ({ st with stack := [] },
                .err (.stackUnderflow (s.to_filespan st.filename) "rot" 3))
           | _ :: [] =>
              ({ st with stack := [] },
                .err (.stackUnderflow (s.to_filespan st.filename) "rot" 3))
           | _ =>
              (st, .err (.stackUnderflow (s.to_filespan st.filename) "rot" 3)))
  | .trace =>
      match st.peek 0 with
      | some a =>
          let bytes :=
            match a with
            | .int n => str_bytes ("int " ++ toString n)
            | .float n => str_bytes ("float " ++ toString n)
            | .string ptr size =>
                str_bytes "string \"" ++ read_string st ptr size ++ str_bytes "\""
            | .bool b => str_bytes ("bool " ++ toString b)
            | .nil => str_bytes "nil"
            | .array id => str_bytes ("array at 0X" ++ hex_upper id)
          (write_out st (bytes ++ [10]), .ok)
      | none =>
          (st, .err (.stackUnderflow (s.to_filespan st.filename) "trace" 1))
  | .brk => ({ st with loop_break := true }, .ok)
  | .cont => ({ st with loop_continue := true }, .ok)
  | .ret => ({ st with proc_return := true }, .ok)
  | .tru => (push_bool st true, .ok)
  | .fls => (push_bool st false, .ok)
  | .nil => (push_nil st, .ok)
  | .isNil =>
      match st.pop with
      | some (.nil, st1) => (push_bool st1 true, .ok)
      | some (_, st1) => (push_bool st1 false, .ok)
      | none =>
          (st, .err (.stackUnderflow (s.to_filespan st.filename) "?" 1))
  | .seqIndex =>
      match st.pop with
      | none =>
          (st, .err (.stackUnderflow (s.to_filespan st.filename) "@" 2))
      | some (a, st1) =>
        match st1.pop with
        | none =>
            (st1, .err (.stackUnderflow (s.to_filespan st1.filename) "@" 2))
        | some (b, st2) =>
          match a, b with
          | .int index, .array id =>
              let arr := load_array st2 id
              let i0 := index.natAbs
              -- For a negative index larger than the length the source's
              -- usize subtraction wraps (release profile) to an index that
              -- is necessarily out of bounds.
              if index < 0 ∧ i0 > arr.length then
                (st2, .err (.arrayOutOfBounds (s.to_filespan st2.filename)
                  index arr.length))
              else
                let i := if index < 0 then arr.length - i0 else i0
                match arr.get? i with
                | some d => (st2.push d, .ok)
                | none =>
                    (st2, .err (.arrayOutOfBounds (s.to_filespan st2.filename)
                      index arr.length))
          | .int index, .string ptr size =>
              let i0 := index.natAbs
              if index < 0 ∧ i0 > size then
                (st2, .err (.stringOutOfBounds (s.to_filespan st2.filename)
                  index size))
              else
                let i := if index < 0 then size - i0 else i0
                if i ≥ size then
                  (st2, .err (.stringOutOfBounds (s.to_filespan st2.filename)
                    index size))
                else (st2.push (.string (ptr + i) 1), .ok)
          | a2, b2 =>
              (st2, .err (.unexpectedType (s.to_filespan st2.filename) "@"
                "(array, int) or (string, int)"
                ("(" ++ a2.format ++ ", " ++ b2.format ++ ")")))
  | .seqAssignAtIndex =>
      match st.pop with
      | none =>
          (st, .err (.stackUnderflow (s.to_filespan st.filename) "!" 2))
      | some (a, st1) =>
        match st1.pop with
        | none =>
            (st1, .err (.stackUnderflow (s.to_filespan st1.filename) "!" 2))
        | some (b, st2) =>
          match st2.pop with
          | none =>
              (st2, .err (.stackUnderflow (s.to_filespan st2.filename) "!" 2))
          | some (c, st3) =>
            match a, b, c with
            | .int index, x2, .array id =>
                let arr := load_array st3 id
                let i0 := index.natAbs
                if index < 0 ∧ i0 > arr.length then
                  (st3, .err (.arrayOutOfBounds (s.to_filespan st3.filename)
                    index arr.length))
                else
                  let i := if index < 0 then arr.length - i0 else i0
                  if i < arr.length then
                    (arrays_insert st3 id (arr.set i x2), .ok)
                  else
                    (st3, .err (.arrayOutOfBounds (s.to_filespan st3.filename)
                      index arr.length))
            | .int index, .int chr, .string ptr size =>
                let i0 := index.natAbs
                if index < 0 ∧ i0 > size then
                  (st3, .err (.stringOutOfBounds (s.to_filespan st3.filename)
                    index size))
                else
                  let i := if index < 0 then size - i0 else i0
                  if i ≥ size then
                    (st3, .err (.stringOutOfBounds (s.to_filespan st3.filename)
                      index size))
                  else
                    ({ st3 with string_buffer :=
                        st3.string_buffer.set (ptr + i) (u8_wrap chr) }, .ok)
            | a2, b2, c2 =>
                (st3, .err (.unexpectedType (s.to_filespan st3.filename) "!"
                  "(array, any, int), (string, int, int) or (string, string, int)"
                  ("(" ++ a2.format ++ ", " ++ b2.format ++ ", " ++
                    c2.format ++ ")")))

/-- The builtin-name dispatch at the top of run_node's Symbol arm
(runtime.rs lines 986-999). -/
def rt_builtin_of_name (w : String) : Option RBuiltin :=
  if w = "println" then some .println
  else if w = "print" then some .print
  else if w = "eprint" then some .eprint
  else if w = "eprintln" then some .eprintln
  else if w = "inputln" then some .inputln
  else if w = "input" then some .input
  else if w = "exit" then some .exit
  else if w = "tostring" then some .tostring
  else if w = "toint" then some .toint
  else if w = "tofloat" then some .tofloat
  else if w = "typeof" then some .typeof_
  else if w = "chr" then some .chr
  else if w = "len" then some .len
  else none

/-- The variable-binding loop of run_node's AsLet arm: pop one value per
declared variable, iterating the declarations in reverse. -/
def aslet_bind (vars : List Token) (locals : List (String × Data))
    (st : RState) : (RState × RStatus) × List (String × Data) :=
  match vars with
  | [] => ((st, .ok), locals)
  | x :: rest =>
      match st.pop with
      | some (a, st1) => aslet_bind rest (alist_insert locals x.value a) st1
      | none =>
          ((st, .err (.unboundVariable (x.span.to_filespan st.filename)
            x.value)), locals)

mutual

/-- Runtime::run_node from runtime.rs (lines 752-1092), embedded with a
fuel parameter bounding the source's unbounded loop and recursion
constructs. -/
def run_node : Nat → Node → RState → RState × RStatus
  | 0, _, st => (st, .fuelOut)
  | fuel + 1, n, st =>
    match n with
    | .ifN i e s =>
        match st.pop with
        | some (.bool b, st1) =>
            if b then run_block fuel i st1
            else
              match e with
              | some els => run_block fuel els st1
              | none => (st1, .ok)
        | some (a, st1) =>
            (st1, .err (.unexpectedType (s.to_filespan st1.filename) "if"
              "bool" ("(" ++ a.format ++ ")")))
        | none =>
            (st, .err (.stackUnderflow (s.to_filespan st.filename) "if" 1))
    | .loop l _ =>
        let st1 := { st with loop_break := false, loop_continue := false }
        match run_loop fuel l st1 with
        | (st2, .ok) =>
            ({ st2 with loop_break := false, loop_continue := false }, .ok)
        | r => r
    | .intLit v _ => (push_int st v, .ok)
    | .floatLit v _ => (push_float st v, .ok)
    | .stringLit v _ => push_string st (str_bytes v)
    | .operation op s => run_operation op s st
    | .symbol w s =>
        match rt_builtin_of_name w with
        | some b => builtin s b st
        | none =>
          match alist_get st.ns.procs w with
          | some p =>
              let st1 := { st with proc_return := false }
              let prevFilename := st1.filename
              let st2 := { st1 with filename := p.span.filename,
                                    recursion_depth := st1.recursion_depth + 1 }
              if st2.recursion_depth ≥ MAX_RECURSION_DEPTH then
                (st2, .err (.recursionDepthOverflow p.span))
              else
                match run_proc_body fuel p.body st2 with
                | (st3, .ok) =>
                    ({ st3 with recursion_depth := st3.recursion_depth - 1,
                                filename := st3.root_filename,
                                proc_return := false }, .ok)
                | (st3, .err e) =>
                    (st3, .err (.procedureError (s.to_filespan prevFilename) e))
                | r => r
          | none =>
            match alist_get st.ns.defs w with
            | some d => (st.push d, .ok)
            | none =>
              match st.ns.locals with
              | scope :: _ =>
                  match alist_get scope w with
                  | some v => (st.push v, .ok)
                  | none =>
                      (st, .err (.invalidWord (s.to_filespan st.filename) w))
              | [] =>
                  match alist_get st.ns.globals w with
                  | some v => (st.push v, .ok)
                  | none =>
                      (st, .err (.invalidWord (s.to_filespan st.filename) w))
    | .array block _ =>
        let beforeLen := st.stack.length
        match run_block fuel block st with
        | (st1, .ok) =>
            let afterLen := st1.stack.length
            -- the source computes after - before and then zeroes it when
            -- before > after; with saturating Nat subtraction the guard is
            -- already the value computed
            let arrayLen := if beforeLen > afterLen then 0
                            else afterLen - beforeLen
            let arr := (st1.stack.take arrayLen).reverse
            let st2 := { st1 with stack := st1.stack.drop arrayLen }
            let id := st2.current_array
            let st3 := { (arrays_insert st2 id arr) with
                          current_array := st2.current_array + 1 }
            (st3.push (.array id), .ok)
        | r => r
    | .letN name span =>
        match st.pop with
        | some (a, st1) =>
            match st1.ns.locals with
            | scope :: restScopes =>
                ({ st1 with ns := { st1.ns with
                   locals := alist_insert scope name a :: restScopes } }, .ok)
            | [] =>
                ({ st1 with ns := { st1.ns with
                   globals := alist_insert st1.ns.globals name a } }, .ok)
        | none =>
            (st, .err (.unboundVariable (span.to_filespan st.filename) name))
    | .asLet vars block _ =>
        match aslet_bind vars.reverse [] st with
        | ((st1, .ok), localsMap) =>
            let st2 := { st1 with ns := { st1.ns with
                          locals := localsMap :: st1.ns.locals } }
            match run_block fuel block st2 with
            | (st3, .ok) =>
                match st3.ns.locals with
                | _ :: restScopes =>
                    ({ st3 with ns := { st3.ns with locals := restScopes } },
                      .ok)
                | [] =>
                    -- locals.pop().unwrap(): nothing in run_node removes the
                    -- scope pushed above, so this is the source's unwrap panic
                    (st3, .panicked "called Option::unwrap on a None value")
            | r => r
        | ((st1, bad), _) => (st1, bad)
    | .proc _ _ _ => (st, .ok)
    | .defN _ _ _ => (st, .ok)
    | .importN _ _ => (st, .ok)
    | .forN _ _ _ =>
        -- run_node's match in the runtime.rs snapshot has no For arm (the
        -- parser and runtime snapshots differ); modelled as the other
        -- declaration no-ops.  No claim builds a For node.
        (st, .ok)

/-- Runtime::run_block: run each node, stopping early when a
break/continue/return flag was raised so that the enclosing construct
can handle it. -/
def run_block : Nat → List Node → RState → RState × RStatus
  | 0, _, st => (st, .fuelOut)
  | _ + 1, [], st => (st, .ok)
  | fuel + 1, n :: rest, st =>
      match run_node fuel n st with
      | (st1, .ok) =>
          if st1.loop_continue || st1.loop_break || st1.proc_return then
            (st1, .ok)
          else run_block fuel rest st1
      | r => r

/-- One pass of the Loop arm's inner for loop: run the nodes in order;
a raised loop_break exits the labelled outer loop (third component
true); a raised loop_continue merely continues the for loop, i.e. falls
through to the next node. -/
def run_loop_nodes : Nat → List Node → RState → RState × RStatus × Bool
  | 0, _, st => (st, .fuelOut, false)
  | _ + 1, [], st => (st, .ok, false)
  | fuel + 1, n :: rest, st =>
      match run_node fuel n st with
      | (st1, .ok) =>
          if st1.loop_break then (st1, .ok, true)
          else run_loop_nodes fuel rest st1
      | (st1, bad) => (st1, bad, false)

/-- The labelled outer loop of run_node's Loop arm: repeat the body
until a break or an abnormal status. -/
def run_loop : Nat → List Node → RState → RState × RStatus
  | 0, _, st => (st, .fuelOut)
  | fuel + 1, l, st =>
      match run_loop_nodes fuel l st with
      | (st1, .ok, true) => (st1, .ok)
      | (st1, .ok, false) => run_loop fuel l st1
      | (st1, bad, _) => (st1, bad)

/-- The procedure-body loop of run_node's Symbol arm: run each node (the
caller wraps an err into ProcedureError), stopping after a node that
raised proc_return. -/
def run_proc_body : Nat → List Node → RState → RState × RStatus
  | 0, _, st => (st, .fuelOut)
  | _ + 1, [], st => (st, .ok)
  | fuel + 1, n :: rest, st =>
      match run_node fuel n st with
      | (st1, .ok) =>
          if st1.proc_return then (st1, .ok)
          else run_proc_body fuel rest st1
      | r => r

end

/-! ## Concrete claim programs -/

/-- The program `3 4 as a b let a b + end` as parsed nodes. -/
def c1_prog : List Node :=
  [.intLit 3 ⟨1, 1⟩, .intLit 4 ⟨1, 3⟩,
   .asLet [⟨"a", .word, ⟨1, 8⟩⟩, ⟨"b", .word, ⟨1, 10⟩⟩]
     [.symbol "a" ⟨1, 16⟩, .symbol "b" ⟨1, 18⟩, .operation .add ⟨1, 20⟩]
     ⟨1, 22⟩]

/-- The program `10 0 /` as parsed nodes. -/
def c2_prog : List Node :=
  [.intLit 10 ⟨1, 1⟩, .intLit 0 ⟨1, 4⟩, .operation .div ⟨1, 6⟩]

/-- A program whose first Symbol names a procedure defined later:
`f proc f end`. -/
def c4_forward_prog : List Node :=
  [.symbol "f" ⟨1, 1⟩, .proc "f" [] ⟨1, 8⟩]

/-- A recursive procedure and a later call: `proc f f end f`. -/
def c4_recursive_prog : List Node :=
  [.proc "f" [.symbol "f" ⟨1, 8⟩] ⟨1, 6⟩, .symbol "f" ⟨1, 14⟩]

/-! ## Claim theorems -/

/-- C1: in the tree-walking runtime (Runtime::run_node), `as a b let a b
+ end` with 3 and 4 already on the stack binds b to the top of stack and
a underneath (reverse declaration order) in a freshly pushed lexical
scope, runs the body, pops the scope, and leaves 7 on top with no
binding for a or b surviving the end (locals and globals both empty, and
a subsequent use of `a` fails with InvalidWord).  The claim is right
about the runtime.  The compiler, however, is wrong (code bug): the
AsLet arm of Compiler::compile_block discards the body entirely and
emits only the two SetVariable instructions (in reverse declaration
order) with their spans — no instruction of the body `a b +`, no scope
instructions — as the last conjunct evaluates. -/
theorem C1_as_let_runtime_ok_compiler_drops_body :
    (run_block 10 c1_prog (RState.new "f")).1.stack = [Data.int 7] ∧
    (run_block 10 c1_prog (RState.new "f")).2 = .ok ∧
    (run_block 10 c1_prog (RState.new "f")).1.ns.locals = [] ∧
    (run_block 10 c1_prog (RState.new "f")).1.ns.globals = [] ∧
    (run_block 10 (c1_prog ++ [.symbol "a" ⟨1, 26⟩]) (RState.new "f")).2
      = .err (.invalidWord ⟨"f", 1, 26⟩ "a") ∧
    (compile c1_prog "f").1 =
      [.beginScope,
       .setSpan 0, .push (.int 3),
       .setSpan 1, .push (.int 4),
       .setSpan 2, .setVariable "b",
       .setSpan 3, .setVariable "a",
       .endScope] := by
  refine ⟨?_, ?_, ?_, ?_, ?_, ?_⟩ <;>
    simp [c1_prog, run_block, run_node, run_operation, binop, aslet_bind,
      alist_get, alist_insert, rt_builtin_of_name, RState.pop, RState.push,
      push_int, RState.new, compile, compile_block, compile_nodes,
      compile_node, compile_aslet_vars, push_instr, add_span, CState.new,
      Span.to_filespan]

/-- C2: the claim says a zero divisor for `/` or `%` on Int operands
raises the tagged runtime error DivisionByZero.  The code is wrong
(code bug): Runtime::binop divides with Rust's i64 `/` and `%` with no
zero check, which is a process-aborting panic, and the runtime.rs
RuntimeError enum has no DivisionByZero variant at all (although
error.rs still carries a formatter for one).  Whenever the top of stack
is Int 0 under an Int, `/` and `%` panic, and the program `10 0 /`
panics rather than producing a diagnostic. -/
theorem C2_division_by_zero_panics :
    (∀ (s : Span) (st : RState) (n : Int) (rest : List Data),
      st.stack = Data.int 0 :: Data.int n :: rest →
      (binop s .div st).2 = .panicked "attempt to divide by zero") ∧
    (∀ (s : Span) (st : RState) (n : Int) (rest : List Data),
      st.stack = Data.int 0 :: Data.int n :: rest →
      (binop s .mod st).2 =
        .panicked "attempt to calculate the remainder with a divisor of zero") ∧
    (run_block 10 c2_prog (RState.new "main.pile")).2 =
      .panicked "attempt to divide by zero" := by
  refine ⟨?_, ?_, ?_⟩
  · intro s st n rest h
    simp [binop, RState.pop, h]
  · intro s st n rest h
    simp [binop, RState.pop, h]
  · simp [c2_prog, run_block, run_node, run_operation, binop, RState.pop,
      push_int, RState.push, RState.new]

/-- C2 witness: the universally quantified conjuncts applied at a
concrete state with 0 over 10 on the stack. -/
theorem C2_division_by_zero_panics_witness :
    ({ RState.new "f" with stack := [Data.int 0, Data.int 10] } : RState).stack
        = Data.int 0 :: Data.int 10 :: [] ∧
    (binop ⟨1, 1⟩ .div { RState.new "f" with
        stack := [Data.int 0, Data.int 10] }).2 =
      .panicked "attempt to divide by zero" ∧
    (binop ⟨1, 1⟩ .mod { RState.new "f" with
        stack := [Data.int 0, Data.int 10] }).2 =
      .panicked "attempt to calculate the remainder with a divisor of zero" :=
  ⟨rfl,
   C2_division_by_zero_panics.1 ⟨1, 1⟩ _ 10 [] rfl,
   C2_division_by_zero_panics.2.1 ⟨1, 1⟩ _ 10 [] rfl⟩

/-- C6: the claim says an unterminated string literal always reports a
token error and never yields a String token.  The code is wrong (code
bug) at two boundary shapes: when the input ends immediately after the
opening quote the scanning while-let simply ends and an empty String
token is returned; likewise when the input ends right after an escaped
quote (`"ab\"`), the token "ab\"" is returned.  The intended behaviour
is visible in the third conjunct: an unterminated literal whose last
character is ordinary does report the token error. -/
theorem C6_unterminated_string_token :
    lexer_next "main.pile" ['"'] ⟨1, 1⟩ =
      .token { value := "", kind := .string, span := ⟨1, 1⟩ } [] ⟨1, 3⟩ ∧
    lexer_next "main.pile" ['"', 'a', 'b', '\\', '"'] ⟨1, 1⟩ =
      .token { value := "ab\"", kind := .string, span := ⟨1, 1⟩ } [] ⟨1, 6⟩ ∧
    lexer_next "main.pile" ['"', 'a', 'b'] ⟨1, 1⟩ =
      .error ⟨"main.pile", 1, 3⟩
        "expected closing quotation mark for string literal" := by
  refine ⟨rfl, rfl, rfl⟩

/-- C7 counterexample: lexing the literal `"\n"` consumes four
characters but advances the column cursor by only three (the buffer's
byte length plus the two quotes — the two-character escape sequence
contributes one byte), so the cursor after the token is 4 where
counting scanned characters would give 5; the span of a following token
is therefore off by one, refuting the claim that the column cursor
advances by the number of characters consumed. -/
theorem C7_counterexample_escape_columns :
    lexer_next "f" ['"', '\\', 'n', '"', ' ', 'x'] ⟨1, 1⟩ =
      .token { value := "\n", kind := .string, span := ⟨1, 1⟩ }
        [' ', 'x'] ⟨1, 4⟩ ∧
    ['"', '\\', 'n', '"', ' ', 'x'].length - [' ', 'x'].length = 4 ∧
    1 + 4 ≠ 4 := by
  refine ⟨rfl, by decide, by decide⟩

/-- On an ASCII character list the UTF-8 byte size equals the number of
characters (each code point below 128 encodes in one byte). -/
theorem ascii_utf8ByteSize (l : List Char) (h : ∀ c ∈ l, c.toNat < 128) :
    String.utf8ByteSize ⟨l⟩ = l.length := by
  induction l with
  | nil => rfl
  | cons c cs ih =>
      have hc : c.utf8Size = 1 := by
        have hv : c.toNat < 128 := h c (by simp)
        unfold Char.utf8Size
        rw [if_pos]
        show c.val.toNat ≤ 127
        have he2 : c.val.toNat = c.toNat := rfl
        omega
      have hcs := ih (fun d hd => h d (by simp [hd]))
      show String.utf8ByteSize ⟨c :: cs⟩ = cs.length + 1
      have he : String.utf8ByteSize ⟨c :: cs⟩ =
          String.utf8ByteSize ⟨cs⟩ + c.utf8Size := rfl
      rw [he, hc, hcs]

/-- string_scan on a literal whose inside has no quote and no backslash
consumes exactly the inside plus the closing quote. -/
theorem string_scan_plain (inside : List Char) (buf : String)
    (rest : List Char) (h : ∀ c ∈ inside, c ≠ '"' ∧ c ≠ '\\') :
    string_scan (inside ++ '"' :: rest) buf = .done ⟨buf.data ++ inside⟩ rest := by
  induction inside generalizing buf with
  | nil =>
      rw [List.nil_append, string_scan.eq_def]
      simp [is_string]
  | cons d ds ih =>
      obtain ⟨hq, hb⟩ := h d (by simp)
      rw [List.cons_append, string_scan.eq_def]
      simp only [is_string]
      rw [if_neg (by simp [hq]), if_neg (by simp), if_neg hb]
      rw [ih _ (fun c hc => h c (by simp [hc]))]
      simp [String.push]

/-- word_scan consumes every non-whitespace character up to the first
whitespace (or the end of the input). -/
theorem word_scan_plain (body : List Char) (buf : String)
    (rest : List Char) (h : ∀ c ∈ body, rust_is_whitespace c = false)
    (hr : ∀ r ∈ rest.head?, rust_is_whitespace r = true) :
    word_scan (body ++ rest) buf = (⟨buf.data ++ body⟩, rest) := by
  induction body generalizing buf with
  | nil =>
      cases rest with
      | nil => simp [word_scan]
      | cons r rs =>
          have := hr r (by simp)
          simp [word_scan, this]
  | cons d ds ih =>
      have hd := h d (by simp)
      rw [List.cons_append, word_scan.eq_def]
      simp only []
      rw [if_neg (by simp [hd])]
      rw [ih _ (fun c hc => h c (by simp [hc]))]
      simp [String.push]

/-- A character outside ASCII occupies at least two UTF-8 bytes. -/
theorem two_le_utf8Size (c : Char) (h : 127 < c.toNat) : 2 ≤ c.utf8Size := by
  unfold Char.utf8Size
  simp only []
  split_ifs with h1 h2 h3
  · have hle : c.val.toNat ≤ 127 := h1
    have he : c.val.toNat = c.toNat := rfl
    omega
  · omega
  · omega
  · omega

/-- Every character occupies at least one UTF-8 byte. -/
theorem length_le_utf8ByteSize (l : List Char) :
    l.length ≤ (⟨l⟩ : String).utf8ByteSize := by
  induction l with
  | nil => simp
  | cons c cs ih =>
      have he : String.utf8ByteSize ⟨c :: cs⟩ =
          String.utf8ByteSize ⟨cs⟩ + c.utf8Size := rfl
      have hp : 0 < c.utf8Size := Char.utf8Size_pos c
      simp only [List.length_cons, he]
      omega

/-- Text containing a character outside ASCII has strictly more UTF-8
bytes than code points. -/
theorem length_lt_utf8ByteSize (l : List Char)
    (h : ∃ c ∈ l, 127 < c.toNat) :
    l.length < (⟨l⟩ : String).utf8ByteSize := by
  induction l with
  | nil => simp at h
  | cons c cs ih =>
      have he : String.utf8ByteSize ⟨c :: cs⟩ =
          String.utf8ByteSize ⟨cs⟩ + c.utf8Size := rfl
      rcases h with ⟨d, hd, hgt⟩
      rcases List.mem_cons.mp hd with rfl | hmem
      · have h2 := two_le_utf8Size d hgt
        have h3 := length_le_utf8ByteSize cs
        simp only [List.length_cons, he]
        omega
      · have h2 := ih ⟨d, hmem, hgt⟩
        have hp : 0 < c.utf8Size := Char.utf8Size_pos c
        simp only [List.length_cons, he]
        omega

/-- C7 (amended): the lexer's column cursor advances by the UTF-8 byte
length (Rust String::len) of the token's processed buffer — plus 2 for
a string literal's quotes — not by scanned code points: byte length
strictly exceeds the code-point count whenever a character lies outside
ASCII, so a literal containing a multi-byte character advances the
cursor by more than the number of characters scanned (lexing "é"
consumes three characters but advances the cursor by four).  The
advance coincides with the number of characters consumed exactly for
escape-free ASCII string literals and for ASCII words; a char literal
advances the column by 0 even though it consumes two characters. -/
theorem C7_amended_column_advance :
    (∀ (name : String) (sp : Span) (inside rest : List Char),
      (∀ c ∈ inside, c ≠ '"' ∧ c ≠ '\\') →
      lexer_next name ('"' :: (inside ++ '"' :: rest)) sp =
        .token { value := ⟨inside⟩, kind := .string, span := sp } rest
          { line := sp.line,
            col := sp.col + ((⟨inside⟩ : String).utf8ByteSize + 2) }) ∧
    (∀ (l : List Char), (∃ c ∈ l, 127 < c.toNat) →
      l.length < (⟨l⟩ : String).utf8ByteSize) ∧
    (lexer_next "f" ['"', 'é', '"', ' ', 'x'] ⟨1, 1⟩ =
        .token { value := "é", kind := .string, span := ⟨1, 1⟩ }
          [' ', 'x'] ⟨1, 5⟩ ∧
      ['"', 'é', '"', ' ', 'x'].length - [' ', 'x'].length = 3 ∧
      (5 : Nat) ≠ 1 + 3) ∧
    (∀ (name : String) (sp : Span) (inside rest : List Char),
      (∀ c ∈ inside, c ≠ '"' ∧ c ≠ '\\' ∧ c.toNat < 128) →
      lexer_next name ('"' :: (inside ++ '"' :: rest)) sp =
        .token { value := ⟨inside⟩, kind := .string, span := sp } rest
          { line := sp.line, col := sp.col + (inside.length + 2) } ∧
      ('"' :: (inside ++ '"' :: rest)).length - rest.length =
        inside.length + 2) ∧
    (∀ (name : String) (sp : Span) (c : Char) (body rest : List Char),
      is_newline c = false → rust_is_whitespace c = false →
      is_comment c = false → is_string c = false → is_char c = false →
      is_int_start c (body ++ rest).head? = false →
      is_float_start c (body ++ rest).head? = false →
      is_word c = true →
      (∀ d ∈ body, rust_is_whitespace d = false ∧ d.toNat < 128) →
      (∀ r ∈ rest.head?, rust_is_whitespace r = true) →
      lexer_next name (c :: (body ++ rest)) sp =
        .token { value := ⟨c :: body⟩, kind := .word, span := sp } rest
          { line := sp.line, col := sp.col + (body.length + 1) } ∧
      (c :: (body ++ rest)).length - rest.length = body.length + 1) ∧
    (∀ (name : String) (sp : Span) (chr : Char) (rest : List Char),
      chr ≠ '\\' →
      lexer_next name ('\'' :: chr :: rest) sp =
        .token { value := toString (chr.toNat : Int), kind := .int,
                 span := sp } rest sp ∧
      ('\'' :: chr :: rest).length - rest.length = 2) := by
  refine ⟨?_, ?_, ⟨rfl, by decide, by decide⟩, ?_, ?_, ?_⟩
  · intro name sp inside rest h
    have hscan := string_scan_plain inside "" rest h
    simp +decide [lexer_next, skip_layout, is_string, hscan]
    omega
  · intro l h
    exact length_lt_utf8ByteSize l h
  · intro name sp inside rest h
    have hscan := string_scan_plain inside "" rest
      (fun c hc => ⟨(h c hc).1, (h c hc).2.1⟩)
    have hsize : (⟨inside⟩ : String).utf8ByteSize = inside.length :=
      ascii_utf8ByteSize inside (fun c hc => (h c hc).2.2)
    constructor
    · simp +decide [lexer_next, skip_layout, is_string, hscan, hsize]
      omega
    · simp [List.length_append]
      omega
  · intro name sp c body rest hnl hws hcm hstr hch hint hflt hw hbody hrest
    have hscan := word_scan_plain body ("".push c) rest
      (fun d hd => (hbody d hd).1) hrest
    have hsize : (⟨c :: body⟩ : String).utf8ByteSize = body.length + 1 := by
      rw [ascii_utf8ByteSize]
      · simp
      · intro d hd
        rcases List.mem_cons.mp hd with h1 | h2
        · subst h1
          simpa [is_word] using hw
        · exact (hbody d h2).2
    simp only [List.head?_append] at hint hflt
    simp [String.push] at hscan
    constructor
    · simp [lexer_next, skip_layout, hnl, hws, hcm, hstr, hch, hint, hflt,
        hw, hscan, hsize, String.singleton, String.push]
    · simp [List.length_append]
      omega
  · intro name sp chr rest h
    constructor
    · simp +decide [lexer_next, skip_layout, is_string, is_char, h]
    · simp
      omega

theorem C7_amended_column_advance_witness :
    (∀ c ∈ ['é'], c ≠ '"' ∧ c ≠ '\\') ∧
    (lexer_next "f" ('"' :: (['é'] ++ '"' :: [' ', 'x'])) ⟨1, 1⟩ =
      .token { value := ⟨['é']⟩, kind := .string, span := ⟨1, 1⟩ } [' ', 'x']
        { line := 1, col := 1 + ((⟨['é']⟩ : String).utf8ByteSize + 2) }) ∧
    (∃ c ∈ ['é'], 127 < c.toNat) ∧
    (['é'] : List Char).length < (⟨['é']⟩ : String).utf8ByteSize ∧
    (∀ c ∈ ['o', 'k'], c ≠ '"' ∧ c ≠ '\\' ∧ c.toNat < 128) ∧
    (lexer_next "f" ('"' :: (['o', 'k'] ++ '"' :: [])) ⟨1, 1⟩ =
      .token { value := ⟨['o', 'k']⟩, kind := .string, span := ⟨1, 1⟩ } []
        { line := 1, col := 1 + (['o', 'k'].length + 2) }) ∧
    (lexer_next "f" ('f' :: (['o', 'o'] ++ [])) ⟨1, 1⟩ =
      .token { value := ⟨'f' :: ['o', 'o']⟩, kind := .word, span := ⟨1, 1⟩ } []
        { line := 1, col := 1 + (['o', 'o'].length + 1) }) ∧
    (lexer_next "f" ('\'' :: 'a' :: []) ⟨1, 1⟩ =
      .token { value := toString ('a'.toNat : Int), kind := .int,
               span := ⟨1, 1⟩ } [] ⟨1, 1⟩) :=
  ⟨by decide,
   C7_amended_column_advance.1 "f" ⟨1, 1⟩ ['é'] [' ', 'x'] (by decide),
   by decide,
   C7_amended_column_advance.2.1 ['é'] (by decide),
   by decide,
   (C7_amended_column_advance.2.2.2.1 "f" ⟨1, 1⟩ ['o', 'k'] []
     (by decide)).1,
   (C7_amended_column_advance.2.2.2.2.1 "f" ⟨1, 1⟩ 'f' ['o', 'o'] []
     (by decide) (by decide) (by decide) (by decide) (by decide) (by decide)
     (by decide) (by decide) (by decide) (by simp)).1,
   (C7_amended_column_advance.2.2.2.2.2 "f" ⟨1, 1⟩ 'a' [] (by decide)).1⟩

/-- C4 counterexample: in `f proc f end` the Symbol f occurs earlier in
the program than the procedure's definition; the single-pass compiler
has not yet recorded f in the name-to-address map, so the Symbol
compiles to PushBinding "f" — not to Call — refuting the claim that a
call appearing earlier in the program than the procedure's definition
compiles to Call(entry_addr). -/
theorem C4_counterexample_forward_call :
    (compile c4_forward_prog "f").1 =
      [.beginScope,
       .setSpan 0, .pushBinding "f",
       .setSpan 1, .jump 8, .beginScope, .endScope, .ret,
       .endScope] := by
  simp [compile, compile_block, compile_nodes, compile_node, push_instr,
    add_span, procs_get, builtin_of_name, CState.new, c4_forward_prog,
    Span.to_filespan]

/-- C8 counterexample: `proc "" end` — the token at the identifier
position is the empty string (an empty string literal), which
is_valid_identifier accepts (the head-digit check is vacuous, all-of
is vacuous, and the empty string is in neither reserved set), so the
parser accepts an empty identifier, refuting the claim that a token is
accepted only when non-empty. -/
theorem C8_counterexample_empty_identifier :
    parse_prog 10 "f"
      [⟨"proc", .word, ⟨1, 1⟩⟩, ⟨"", .string, ⟨1, 6⟩⟩, ⟨"end", .word, ⟨1, 9⟩⟩]
      = .ok [.proc "" [] ⟨1, 6⟩] ∧
    is_valid_identifier "" = true := by
  refine ⟨?_, by decide⟩
  simp [parse_prog, parse_expr, parse_proc, parse_proc_body,
    is_valid_identifier, is_reserved_word, is_op, Token.isWord]

/-- C3 counterexample: running the program `"ab" "ab"` (two string
pushes of equal text) leaves two String values with different buffer
pointers — Data.string 2 2 on top of Data.string 0 2 — because
Runtime::store_string is a bump allocator, not an intern pool; the two
values are not equal, refuting P4. -/
theorem C3_counterexample_no_interning :
    (run_block 10 [.stringLit "ab" ⟨1, 1⟩, .stringLit "ab" ⟨1, 6⟩]
        (RState.new "f")).1.stack =
      [Data.string 2 2, Data.string 0 2] ∧
    Data.string 2 2 ≠ Data.string 0 2 := by
  refine ⟨?_, by simp⟩
  simp [run_block, run_node, push_string, store_string, str_bytes,
    utf8_char, STR_CAPACITY, RState.push, RState.new, RState.string_ptr]

/-- Reading back a stored slice: the bytes at offset pre.length of
pre ++ bytes ++ post are bytes. -/
theorem read_slice_append (pre bytes post : List Nat) :
    (List.range bytes.length).map
      (fun i => (pre ++ (bytes ++ post)).getD (pre.length + i) 0) = bytes := by
  apply List.ext_getElem
  · simp
  · intro j h1 h2
    simp only [List.getElem_map, List.getElem_range]
    rw [List.getD_append_right _ _ _ _ (by omega), Nat.add_sub_cancel_left,
      List.getD_append _ _ _ _ h2, List.getD_eq_getElem _ _ h2]

/-- C3 amended: store_string is a bump allocator, not an intern pool.
Two successive pushes of the same byte string (with room in the buffer)
succeed, read back equal text at both handles, and advance the write
pointer past each allocation — so the two String values agree in length
and content but carry distinct pointers whenever the text is
non-empty. -/
theorem C3_amended_bump_allocator (st : RState) (bytes : List Nat)
    (h : st.string_ptr + 2 * bytes.length ≤ STR_CAPACITY) :
    (push_string st bytes).2 = .ok ∧
    (push_string (push_string st bytes).1 bytes).2 = .ok ∧
    (push_string (push_string st bytes).1 bytes).1.stack =
      Data.string (st.string_ptr + bytes.length) bytes.length ::
        Data.string st.string_ptr bytes.length :: st.stack ∧
    read_string (push_string (push_string st bytes).1 bytes).1
        st.string_ptr bytes.length = bytes ∧
    read_string (push_string (push_string st bytes).1 bytes).1
        (st.string_ptr + bytes.length) bytes.length = bytes ∧
    (0 < bytes.length →
      Data.string (st.string_ptr + bytes.length) bytes.length ≠
        Data.string st.string_ptr bytes.length) := by
  have e1 : push_string st bytes =
      ({ st with string_buffer := st.string_buffer ++ bytes,
                 stack := Data.string st.string_ptr bytes.length :: st.stack },
        .ok) := by
    rw [push_string, store_string]
    rw [if_neg (by simp only [RState.string_ptr] at h ⊢; omega)]
    rfl
  have e2 : push_string (push_string st bytes).1 bytes =
      ({ st with string_buffer := st.string_buffer ++ bytes ++ bytes,
                 stack := Data.string (st.string_ptr + bytes.length) bytes.length ::
                   Data.string st.string_ptr bytes.length :: st.stack },
        .ok) := by
    rw [e1, push_string, store_string]
    rw [if_neg (by simp only [RState.string_ptr] at h ⊢; simp; omega)]
    simp [RState.push, RState.string_ptr]
  refine ⟨by rw [e1], by rw [e2], by rw [e2], ?_, ?_, ?_⟩
  · rw [e2]
    show (List.range bytes.length).map _ = bytes
    simp only [RState.string_ptr, List.append_assoc]
    exact read_slice_append st.string_buffer bytes bytes
  · rw [e2]
    show (List.range bytes.length).map _ = bytes
    simp only [RState.string_ptr]
    have := read_slice_append (st.string_buffer ++ bytes) bytes []
    simpa [List.length_append] using this
  · intro hlen heq
    have : st.string_ptr + bytes.length = st.string_ptr := by
      injection heq
    omega

/-- C3 amended witness: the bump allocator applied to "ab" twice from
the initial state. -/
theorem C3_amended_bump_allocator_witness :
    (RState.new "f").string_ptr + 2 * (str_bytes "ab").length ≤ STR_CAPACITY ∧
    (push_string (push_string (RState.new "f") (str_bytes "ab")).1
        (str_bytes "ab")).1.stack =
      Data.string ((RState.new "f").string_ptr + (str_bytes "ab").length)
          (str_bytes "ab").length ::
        Data.string (RState.new "f").string_ptr (str_bytes "ab").length ::
        (RState.new "f").stack ∧
    Data.string ((RState.new "f").string_ptr + (str_bytes "ab").length)
        (str_bytes "ab").length ≠
      Data.string (RState.new "f").string_ptr (str_bytes "ab").length := by
  have h : (RState.new "f").string_ptr + 2 * (str_bytes "ab").length
      ≤ STR_CAPACITY := by decide
  have r := C3_amended_bump_allocator (RState.new "f") (str_bytes "ab") h
  exact ⟨h, r.2.2.1, r.2.2.2.2.2 (by decide)⟩

/-- C8 amended: at every identifier position (proc, def, let, the
as..let variable list, for) a token is accepted exactly when its first
character — if it has one — is not a digit, all its characters are
alphanumeric or an underscore, and it is in neither the reserved-word
set nor the operator set; the empty token satisfies all of these
vacuously and is accepted (the source never checks non-emptiness).  Any
rejected token raises UnexpectedToken(span, got, "valid identifier").
(The character classifier is ASCII in this model; Rust's
char::is_alphanumeric agrees with it on every ASCII code point, hence
the ASCII hypothesis on the characterisation.) -/
theorem C8_amended_identifier_acceptance :
    (∀ v : String, (∀ c ∈ v.toList, c.toNat < 128) →
      (is_valid_identifier v = true ↔
        ((∀ c, v.toList.head? = some c → c.isDigit = false) ∧
         (∀ c ∈ v.toList, c.isAlphanum = true ∨ c = '_') ∧
         is_reserved_word v = false ∧ is_op v = false))) ∧
    (∀ (fuel : Nat) (name : String) (t : Token) (rest : List Token)
        (cur : Span), is_valid_identifier t.value = false →
      parse_proc (fuel + 1) name (t :: rest) cur =
        .error (.unexpectedToken (t.span.to_filespan name) t.value
          "valid identifier")) ∧
    (∀ (fuel : Nat) (name : String) (t : Token) (rest : List Token)
        (cur : Span), is_valid_identifier t.value = false →
      parse_def (fuel + 1) name (t :: rest) cur =
        .error (.unexpectedToken (t.span.to_filespan name) t.value
          "valid identifier")) ∧
    (∀ (fuel : Nat) (name : String) (t : Token) (rest : List Token)
        (cur : Span), is_valid_identifier t.value = false →
      parse_let (fuel + 1) name (t :: rest) cur =
        .error (.unexpectedToken (t.span.to_filespan name) t.value
          "valid identifier")) ∧
    (∀ (fuel : Nat) (name : String) (t : Token) (rest : List Token)
        (cur : Span), is_valid_identifier t.value = false →
      parse_for (fuel + 1) name (t :: rest) cur =
        .error (.unexpectedToken (t.span.to_filespan name) t.value
          "valid identifier")) ∧
    (∀ (fuel : Nat) (name : String) (t : Token) (rest : List Token)
        (cur : Span), t.isWord "let" = false →
      is_valid_identifier t.value = false →
      parse_aslet (fuel + 2) name (t :: rest) cur =
        .error (.unexpectedToken (t.span.to_filespan name) t.value
          "valid identifier")) ∧
    (∀ (fuel : Nat) (name : String) (t : Token) (rest : List Token)
        (cur : Span), is_valid_identifier t.value = true →
      parse_proc (fuel + 1) name (t :: rest) cur =
        parse_proc_body fuel name rest cur t []) := by
  refine ⟨?_, ?_, ?_, ?_, ?_, ?_, ?_⟩
  · intro v _
    rw [is_valid_identifier]
    simp only [Bool.and_eq_true, Bool.not_eq_true']
    constructor
    · rintro ⟨⟨⟨h1, h2⟩, h3⟩, h4⟩
      refine ⟨?_, ?_, h3, h4⟩
      · intro c hc
        rw [hc] at h1
        simpa using h1
      · intro c hc
        have := List.all_eq_true.mp h2 c hc
        simpa using this
    · rintro ⟨h1, h2, h3, h4⟩
      refine ⟨⟨⟨?_, ?_⟩, h3⟩, h4⟩
      · cases hh : v.toList.head? with
        | none => simp
        | some c => simpa using h1 c hh
      · rw [List.all_eq_true]
        intro c hc
        have := h2 c hc
        simpa using this
  · intro fuel name t rest cur h
    simp [parse_proc, h]
  · intro fuel name t rest cur h
    simp [parse_def, h]
  · intro fuel name t rest cur h
    simp [parse_let, h]
  · intro fuel name t rest cur h
    simp [parse_for, h]
  · intro fuel name t rest cur hlet h
    simp [parse_aslet, parse_aslet_vars, hlet, h]
  · intro fuel name t rest cur h
    simp [parse_proc, h]

/-- C8 amended witness: the characterisation at "x1_", rejection at the
digit-leading token 9a across the identifier positions, the as..let
variable position, and acceptance at foo. -/
theorem C8_amended_identifier_acceptance_witness :
    (∀ c ∈ ("x1_" : String).toList, c.toNat < 128) ∧
    is_valid_identifier "x1_" = true ∧
    is_valid_identifier "9a" = false ∧
    parse_proc 5 "f" [⟨"9a", .word, ⟨1, 6⟩⟩] ⟨1, 1⟩ =
      .error (.unexpectedToken ⟨"f", 1, 6⟩ "9a" "valid identifier") ∧
    parse_aslet 6 "f" [⟨"9a", .word, ⟨1, 4⟩⟩] ⟨1, 1⟩ =
      .error (.unexpectedToken ⟨"f", 1, 4⟩ "9a" "valid identifier") ∧
    parse_proc 5 "f" [⟨"foo", .word, ⟨1, 6⟩⟩] ⟨1, 1⟩ =
      parse_proc_body 4 "f" [] ⟨1, 1⟩ ⟨"foo", .word, ⟨1, 6⟩⟩ [] := by
  have hx : (∀ c ∈ ("x1_" : String).toList, c.toNat < 128) := by decide
  refine ⟨hx, ?_, by decide, ?_, ?_, ?_⟩
  · exact (C8_amended_identifier_acceptance.1 "x1_" hx).mpr (by decide)
  · exact C8_amended_identifier_acceptance.2.1 4 "f" ⟨"9a", .word, ⟨1, 6⟩⟩ []
      ⟨1, 1⟩ (by decide)
  · exact C8_amended_identifier_acceptance.2.2.2.2.2.1 4 "f"
      ⟨"9a", .word, ⟨1, 4⟩⟩ [] ⟨1, 1⟩ (by decide) (by decide)
  · exact C8_amended_identifier_acceptance.2.2.2.2.2.2 4 "f"
      ⟨"foo", .word, ⟨1, 6⟩⟩ [] ⟨1, 1⟩ (by decide)

/-! ## Compiler invariants

CInv s r relates a compiler state to any state the compiler can reach
from it: the instruction vector only grows, already-emitted instructions
change only at or above the start length (backpatching), and the loop
stack keeps its lower frames while the top frame's pending-break list
only gains addresses that lie in the newly emitted region. -/

/-- Invariant between a compiler state and a reachable later state. -/
structure CInv (s r : CState) : Prop where
  len_le : s.instructions.length ≤ r.instructions.length
  prefix_eq : ∀ i, i < s.instructions.length →
    r.instructions.get? i = s.instructions.get? i
  loops : ∃ new, (r.loopStack = match s.loopStack with
      | [] => []
      | (st0, br0) :: rest => (st0, br0 ++ new) :: rest) ∧
    ∀ a ∈ new, s.instructions.length ≤ a ∧ a < r.instructions.length

theorem CInv.refl (s : CState) : CInv s s := by
  refine ⟨le_rfl, fun i _ => rfl, [], ?_, by simp⟩
  cases hls : s.loopStack with
  | nil => rfl
  | cons f rest => cases f; simp

theorem CInv.congr {s r q : CState} (inv : CInv s r)
    (h1 : q.instructions = r.instructions) (h2 : q.loopStack = r.loopStack) :
    CInv s q := by
  obtain ⟨new, hL, hb⟩ := inv.loops
  exact ⟨h1 ▸ inv.len_le, fun i hi => h1 ▸ inv.prefix_eq i hi,
    new, h2 ▸ hL, fun a ha => h1 ▸ hb a ha⟩

theorem CInv.push {s r : CState} (inv : CInv s r) {i : Instr} :
    CInv s (push_instr r i) := by
  obtain ⟨new, hL, hb⟩ := inv.loops
  refine ⟨?_, ?_, new, ?_, ?_⟩
  · have := inv.len_le
    simp only [push_instr, List.length_append, List.length_cons]
    omega
  · intro j hj
    simp only [push_instr]
    rw [List.get?_append (lt_of_lt_of_le hj inv.len_le)]
    exact inv.prefix_eq j hj
  · simpa [push_instr] using hL
  · intro a ha
    have := hb a ha
    simp only [push_instr, List.length_append, List.length_cons]
    omega

theorem CInv.add_span {s r : CState} (inv : CInv s r) {fs : FileSpan} :
    CInv s (add_span r fs).2 :=
  inv.congr rfl rfl

theorem CInv.procs_upd {s r : CState} (inv : CInv s r)
    {p : List (String × Nat)} : CInv s { r with procs := p } :=
  inv.congr rfl rfl

theorem CInv.trans {s1 s2 s3 : CState} (a : CInv s1 s2) (b : CInv s2 s3) :
    CInv s1 s3 := by
  obtain ⟨n1, hL1, hb1⟩ := a.loops
  obtain ⟨n2, hL2, hb2⟩ := b.loops
  refine ⟨le_trans a.len_le b.len_le, ?_, ?_⟩
  · intro i hi
    rw [b.prefix_eq i (lt_of_lt_of_le hi a.len_le), a.prefix_eq i hi]
  · cases hls : s1.loopStack with
    | nil =>
        refine ⟨[], ?_, by simp⟩
        rw [hls] at hL1
        rw [hL1] at hL2
        simpa [hls] using hL2
    | cons f rest =>
        obtain ⟨st0, br0⟩ := f
        rw [hls] at hL1
        simp only at hL1
        rw [hL1] at hL2
        simp only at hL2
        refine ⟨n1 ++ n2, by simpa [hls, List.append_assoc] using hL2, ?_⟩
        intro a2 ha2
        rcases List.mem_append.mp ha2 with h | h
        · have := hb1 a2 h
          have := b.len_le
          constructor <;> omega
        · have := hb2 a2 h
          have := a.len_le
          constructor <;> omega

theorem CInv.set_instr {s r : CState} {j : Nat} {v : Instr}
    (inv : CInv s r) (hj : s.instructions.length ≤ j) :
    CInv s { r with instructions := r.instructions.set j v } := by
  obtain ⟨new, hL, hb⟩ := inv.loops
  refine ⟨by simpa using inv.len_le, ?_, new, by simpa using hL, ?_⟩
  · intro i hi
    simp only
    rw [List.get?_set_ne _ _ (by omega)]
    exact inv.prefix_eq i hi
  · intro a ha
    have := hb a ha
    simpa using this

/-- patch_breaks preserves the length of the instruction vector. -/
theorem patch_breaks_length (breaks : List Nat) (le : Nat) (l : List Instr) :
    (patch_breaks breaks le l).length = l.length := by
  induction breaks generalizing l with
  | nil => rfl
  | cons b bs ih => simp [patch_breaks, ih]

/-- patch_breaks leaves positions outside the break list untouched. -/
theorem patch_breaks_get_ne (breaks : List Nat) (le : Nat) (l : List Instr)
    (j : Nat) (h : ∀ b ∈ breaks, b ≠ j) :
    (patch_breaks breaks le l).get? j = l.get? j := by
  induction breaks generalizing l with
  | nil => rfl
  | cons b bs ih =>
      rw [patch_breaks, ih _ (fun x hx => h x (by simp [hx]))]
      exact List.get?_set_ne _ _ (h b (by simp))

/-- Every address in the break list ends up holding Jump(loop_end). -/
theorem patch_breaks_get (breaks : List Nat) (le : Nat) (l : List Instr)
    (a : Nat) (ha : a ∈ breaks) (hlen : a < l.length) :
    (patch_breaks breaks le l).get? a = some (.jump le) := by
  induction breaks generalizing l with
  | nil => cases ha
  | cons b bs ih =>
      rw [patch_breaks]
      by_cases hm : a ∈ bs
      · exact ih _ hm (by simpa using hlen)
      · have hab : a = b := by
          rcases List.mem_cons.mp ha with h | h
          · exact h
          · exact absurd h hm
        subst hab
        rw [patch_breaks_get_ne _ _ _ _ (fun x hx => by
          intro hxa; exact hm (hxa ▸ hx))]
        rw [List.get?_set_eq_of_lt _ hlen]

/-- The AsLet arm's variable loop only appends instructions. -/
theorem compile_aslet_vars_CInv (vs : List Token) (s : CState) :
    CInv s (compile_aslet_vars vs s) := by
  induction vs generalizing s with
  | nil => exact CInv.refl s
  | cons v rest ih =>
      exact ((CInv.refl s).add_span.push.push).trans (ih _)

/-- The Loop arm of compile_node satisfies the compiler invariant,
given the invariant for the compiled body (passed as a hypothesis so
that this lemma stays outside the mutual recursion). -/
theorem CInv_loop_arm (s s1 : CState) (body : List Node)
    (h1 : CInv s s1) (hL1 : s1.loopStack = s.loopStack)
    (ih : CInv { s1 with loopStack :=
        (s1.instructions.length, []) :: s1.loopStack }
      (compile_nodes body { s1 with loopStack :=
        (s1.instructions.length, []) :: s1.loopStack })) :
    CInv s (match (push_instr (compile_nodes body { s1 with loopStack :=
        (s1.instructions.length, []) :: s1.loopStack })
        (.jump s1.instructions.length)).loopStack with
      | [] => push_instr (compile_nodes body { s1 with loopStack :=
          (s1.instructions.length, []) :: s1.loopStack })
          (.jump s1.instructions.length)
      | (_, breaks) :: restStack =>
          { push_instr (compile_nodes body { s1 with loopStack :=
              (s1.instructions.length, []) :: s1.loopStack })
              (.jump s1.instructions.length) with
            loopStack := restStack,
            instructions := patch_breaks breaks
              (push_instr (compile_nodes body { s1 with loopStack :=
                (s1.instructions.length, []) :: s1.loopStack })
                (.jump s1.instructions.length)).instructions.length
              (push_instr (compile_nodes body { s1 with loopStack :=
                (s1.instructions.length, []) :: s1.loopStack })
                (.jump s1.instructions.length)).instructions }) := by
  obtain ⟨new, hL, hb⟩ := ih.loops
  simp only at hL hb
  have hpL : (push_instr (compile_nodes body { s1 with loopStack :=
      (s1.instructions.length, []) :: s1.loopStack })
      (.jump s1.instructions.length)).loopStack =
      (s1.instructions.length, [] ++ new) :: s1.loopStack := hL
  rw [hpL]
  have hmidlen : s1.instructions.length ≤
      (compile_nodes body { s1 with loopStack :=
        (s1.instructions.length, []) :: s1.loopStack }).instructions.length :=
    ih.len_le
  refine ⟨?_, ?_, [], ?_, by simp⟩
  · have := h1.len_le
    simp only [patch_breaks_length, push_instr, List.length_append,
      List.length_cons]
    omega
  · intro i hi
    have hile : i < s1.instructions.length :=
      lt_of_lt_of_le hi h1.len_le
    simp only
    rw [patch_breaks_get_ne _ _ _ _ (fun b hbm => by
      have := hb b hbm
      omega)]
    simp only [push_instr]
    rw [List.get?_append (lt_of_lt_of_le hile hmidlen),
      ih.prefix_eq i hile, h1.prefix_eq i hi]
  · simp only
    rw [hL1]
    cases hls : s.loopStack with
    | nil => rfl
    | cons f rest => cases f; simp

mutual

/-- Compiling any single statement satisfies the compiler invariant. -/
theorem compile_node_CInv (n : Node) (s : CState) :
    CInv s (compile_node n s) := by
  cases n with
  | importN name span =>
      exact (CInv.refl s).congr rfl rfl |>.push.push.congr rfl rfl
  | proc name body sp =>
      refine CInv.set_instr ?_ ?_
      · exact ((CInv.refl s).add_span.push.push.procs_upd.push.trans
          (compile_nodes_CInv body _)).push.push
      · simp [push_instr, add_span]
  | ifN thenB elseB sp =>
      cases elseB with
      | none =>
          refine CInv.set_instr (CInv.set_instr
            (((CInv.refl s).add_span.push.push.trans
              (compile_nodes_CInv thenB _)).push) ?_) ?_
          · exact le_trans (by simp [push_instr, add_span])
              (compile_nodes_CInv _ _).len_le
          · simp [push_instr, add_span]
      | some els =>
          refine CInv.set_instr (CInv.set_instr
            ((((CInv.refl s).add_span.push.push.trans
              (compile_nodes_CInv thenB _)).push).trans
                (compile_nodes_CInv els _)) ?_) ?_
          · exact le_trans (by simp [push_instr, add_span])
              (compile_nodes_CInv _ _).len_le
          · simp [push_instr, add_span]
  | loop body sp =>
      simp only [compile_node]
      exact CInv_loop_arm s _ body ((CInv.refl s).add_span.push) rfl
        (compile_nodes_CInv body _)
  | defN name body sp =>
      exact (CInv.refl s).add_span.push.trans (compile_nodes_CInv body _)
        |>.push
  | array body sp =>
      exact (CInv.refl s).add_span.push.push.trans (compile_nodes_CInv body _)
        |>.push
  | intLit v sp => exact (CInv.refl s).add_span.push.push
  | floatLit v sp => exact (CInv.refl s).add_span.push.push
  | stringLit v sp => exact (CInv.refl s).add_span.push.push
  | letN name sp => exact (CInv.refl s).add_span.push.push
  | symbol name sp =>
      simp only [compile_node]
      split
      · exact (CInv.refl s).add_span.push.push
      · split
        · exact (CInv.refl s).add_span.push.push
        · exact (CInv.refl s).add_span.push.push
  | asLet vs body sp => exact compile_aslet_vars_CInv vs.reverse s
  | forN v body sp => exact CInv.refl s
  | operation kind sp =>
      cases kind <;>
        first
          | exact (CInv.refl s).add_span.push.push
          | exact (CInv.refl s).add_span.push.push.push
          | skip
      case brk =>
          simp only [compile_node]
          cases hls : s.loopStack with
          | nil =>
              simp only [add_span, hls]
              exact (CInv.refl s).congr rfl (by simp [hls])
          | cons f restStack =>
              obtain ⟨start, breaks⟩ := f
              simp only [add_span, hls]
              refine ⟨?_, ?_, [s.instructions.length + 1], ?_, ?_⟩
              · simp [push_instr]
              · intro i hi
                simp only [push_instr]
                rw [List.get?_append (by simp; omega),
                  List.get?_append hi]
              · simp [push_instr, hls]
              · intro a ha
                simp only [List.mem_singleton] at ha
                subst ha
                simp [push_instr]
      case cont =>
          simp only [compile_node]
          cases hls : s.loopStack with
          | nil =>
              simp only [add_span, hls]
              exact (CInv.refl s).congr rfl (by simp [hls])
          | cons f restStack =>
              obtain ⟨start, breaks⟩ := f
              simp only [add_span, hls]
              refine ((CInv.refl s).congr ?_ ?_).push.push
              · rfl
              · rw [hls]

/-- Compiling a statement list satisfies the compiler invariant. -/
theorem compile_nodes_CInv (b : List Node) (s : CState) :
    CInv s (compile_nodes b s) := by
  cases b with
  | nil => exact CInv.refl s
  | cons n rest =>
      exact (compile_node_CInv n s).trans (compile_nodes_CInv rest _)

end

/-- Instructions already emitted below the current length survive any
further compilation. -/
theorem compile_nodes_get_low (b : List Node) (t : CState) (i : Nat)
    (hi : i < t.instructions.length) :
    (compile_nodes b t).instructions.get? i = t.instructions.get? i :=
  (compile_nodes_CInv b t).prefix_eq i hi

/-- C4 amended: a Symbol naming an already-recorded procedure compiles
to Call(entry_addr) — the Proc arm records the entry address (two past
the instruction position at which compilation of the node starts,
i.e. after the SetSpan and the forward Jump) in the name-to-address map
before compiling the body, so a recursive self-call inside the body
resolves to Call(entry) and the forward Jump is backpatched to the
address just past the body's Return; but the map is populated only when
the Proc node itself is compiled, so a Symbol occurring earlier in the
program than the procedure's definition compiles to PushBinding
instead (see the counterexample). -/
theorem C4_amended_procedure_addressing :
    (∀ (s : CState) (name : String) (sp : Span) (addr : Nat),
        procs_get s.procs name = some addr →
        (compile_node (.symbol name sp) s).instructions =
          s.instructions ++ [.setSpan s.spans.length, .call addr]) ∧
    (∀ (s : CState) (name : String) (sp spX : Span) (bodyRest : List Node),
        (compile_node (.proc name (.symbol name spX :: bodyRest) sp)
            s).instructions.get? (s.instructions.length + 1) =
          some (.jump (compile_node (.proc name (.symbol name spX :: bodyRest)
            sp) s).instructions.length) ∧
        (compile_node (.proc name (.symbol name spX :: bodyRest) sp)
            s).instructions.get? (s.instructions.length + 4) =
          some (.call (s.instructions.length + 2))) ∧
    (compile c4_recursive_prog "f").1 =
      [.beginScope, .setSpan 0, .jump 8, .beginScope, .setSpan 1, .call 3,
       .endScope, .ret, .setSpan 2, .call 3, .endScope] := by
  refine ⟨?_, ?_, ?_⟩
  · intro s name sp addr h
    simp [compile_node, push_instr, add_span, h]
  · intro s name sp spX bodyRest
    constructor
    · simp only [compile_node, compile_nodes, push_instr, add_span,
        procs_get, List.find?, decide_True, Option.map_some',
        List.append_assoc, List.length_append, List.length_cons,
        List.length_nil, List.length_set, Nat.zero_add, Nat.add_zero]
      rw [List.get?_set_eq_of_lt]
      case h =>
        simp only [List.length_append, List.length_cons, List.length_nil]
        refine lt_of_lt_of_le ?_
          (Nat.add_le_add_right (compile_nodes_CInv bodyRest _).len_le _)
        simp only [List.length_append, List.length_cons, List.length_nil]
        omega
    · simp only [compile_node, compile_nodes, push_instr, add_span,
        procs_get, List.find?, decide_True, Option.map_some',
        List.append_assoc, List.length_append, List.length_cons,
        List.length_nil]
      rw [List.get?_set_ne _ _ (by omega)]
      rw [List.get?_append ?hb1]
      case hb1 =>
        refine lt_of_lt_of_le ?_ (compile_nodes_CInv bodyRest _).len_le
        simp only [List.length_append, List.length_cons, List.length_nil]
        omega
      rw [compile_nodes_get_low _ _ _ (by
        simp only [List.length_append, List.length_cons, List.length_nil]
        omega)]
      simp only
      rw [List.get?_append_right (by omega)]
      have hidx : s.instructions.length + 4 - s.instructions.length = 4 := by
        omega
      rw [hidx]
      rfl
  · simp [compile, compile_block, compile_nodes, compile_node, push_instr,
      add_span, procs_get, builtin_of_name, CState.new, c4_recursive_prog,
      Span.to_filespan, List.find?]

/-- C4 amended witness: the Symbol-to-Call conjunct applied at a state
whose map holds f at 7, and the proc conjunct at the initial state. -/
theorem C4_amended_procedure_addressing_witness :
    procs_get ({ CState.new with procs := [("f", 7)] } : CState).procs "f"
      = some 7 ∧
    (compile_node (.symbol "f" ⟨1, 1⟩)
        { CState.new with procs := [("f", 7)] }).instructions =
      ({ CState.new with procs := [("f", 7)] } : CState).instructions ++
        [.setSpan ({ CState.new with procs := [("f", 7)] } : CState).spans.length,
         .call 7] ∧
    (compile_node (.proc "f" [.symbol "f" ⟨1, 8⟩] ⟨1, 6⟩)
        CState.new).instructions.get? (CState.new.instructions.length + 4) =
      some (.call (CState.new.instructions.length + 2)) := by
  refine ⟨by simp [procs_get, CState.new, List.find?], ?_, ?_⟩
  · exact C4_amended_procedure_addressing.1
      { CState.new with procs := [("f", 7)] } "f" ⟨1, 1⟩ 7
      (by simp [procs_get, CState.new, List.find?])
  · exact (C4_amended_procedure_addressing.2.1 CState.new "f" ⟨1, 6⟩ ⟨1, 8⟩
      []).2

/-- The compiler state right after the Loop arm has emitted its
SetSpan: the next instruction address is the loop start. -/
def loop_span_state (s : CState) (sp : Span) : CState :=
  push_instr (add_span s (sp.to_filespan s.filename)).2
    (.setSpan (add_span s (sp.to_filespan s.filename)).1)

/-- The state in which a Loop node's body is compiled: the loop stack
carries a fresh frame (loop_start, no pending breaks). -/
def loop_body_state (s : CState) (sp : Span) : CState :=
  { loop_span_state s sp with loopStack :=
      ((loop_span_state s sp).instructions.length, []) ::
        (loop_span_state s sp).loopStack }

/-- Equation for the Loop arm of compile_node once the loop stack shape
after the body is known: the frame is popped and the registered breaks
are patched over the code extended with the back jump. -/
theorem compile_node_loop_eq (s : CState) (body : List Node) (sp : Span)
    (ls : Nat) (brs : List Nat) (rest : List (Nat × List Nat))
    (h : (compile_nodes body (loop_body_state s sp)).loopStack =
      (ls, brs) :: rest) :
    compile_node (.loop body sp) s =
      { push_instr (compile_nodes body (loop_body_state s sp))
          (.jump (loop_span_state s sp).instructions.length) with
        loopStack := rest,
        instructions := patch_breaks brs
          (push_instr (compile_nodes body (loop_body_state s sp))
            (.jump (loop_span_state s sp).instructions.length)).instructions.length
          (push_instr (compile_nodes body (loop_body_state s sp))
            (.jump (loop_span_state s sp).instructions.length)).instructions } := by
  have h' : (push_instr (compile_nodes body (loop_body_state s sp))
      (.jump (loop_span_state s sp).instructions.length)).loopStack =
      (ls, brs) :: rest := h
  simp only [compile_node]
  split
  · rename_i heq
    exact absurd (h'.symm.trans heq) (by simp)
  · rename_i x breaks restStack heq
    have h2 := h'.symm.trans heq
    injection h2 with hpair hrest
    injection hpair with hls hbrk
    subst hbrk
    subst hrest
    rfl

/-- C5: compiling `loop body end` records the address after the SetSpan
as loop_start, compiles the body with no scope in a state with a fresh
loop frame, emits Jump(loop_start) right after the body, pops the frame
(restoring the outer loop stack), and backpatches every break address
registered in that frame to the instruction immediately after the loop
jump; a break outside any loop emits no instruction at all (only its
span-table entry is allocated). -/
theorem C5_loop_compilation_and_break :
    (∀ (s : CState) (sp : Span), s.loopStack = [] →
      (compile_node (.operation .brk sp) s).instructions = s.instructions ∧
      (compile_node (.operation .brk sp) s).loopStack = s.loopStack ∧
      (compile_node (.operation .brk sp) s).spans =
        s.spans ++ [sp.to_filespan s.filename]) ∧
    (∀ (s : CState) (body : List Node) (sp : Span) (a start : Nat)
        (brs : List Nat) (rest : List (Nat × List Nat)),
      (compile_nodes body (loop_body_state s sp)).loopStack =
        (start, brs) :: rest →
      a ∈ brs →
      start = (loop_span_state s sp).instructions.length ∧
      rest = s.loopStack ∧
      (compile_node (.loop body sp) s).loopStack = s.loopStack ∧
      (compile_node (.loop body sp) s).instructions.length =
        (compile_nodes body (loop_body_state s sp)).instructions.length + 1 ∧
      (compile_node (.loop body sp) s).instructions.get?
          (compile_nodes body (loop_body_state s sp)).instructions.length =
        some (.jump (loop_span_state s sp).instructions.length) ∧
      (compile_node (.loop body sp) s).instructions.get? a =
        some (.jump
          ((compile_nodes body (loop_body_state s sp)).instructions.length
            + 1))) := by
  constructor
  · intro s sp h
    refine ⟨?_, ?_, ?_⟩ <;> simp [compile_node, add_span, h]
  · intro s body sp a start brs rest hstack hmem
    obtain ⟨new, hL, hb⟩ := (compile_nodes_CInv body (loop_body_state s sp)).loops
    have htop : (loop_body_state s sp).loopStack =
        ((loop_span_state s sp).instructions.length, []) :: s.loopStack := rfl
    simp only [htop] at hL
    have hcomb := hstack.symm.trans hL
    injection hcomb with hpair hrest
    injection hpair with h1 h2
    subst h1
    subst hrest
    have hbrs : ∀ b ∈ brs, b ∈ new := by
      intro b hbm
      rw [h2] at hbm
      simpa using hbm
    have heq := compile_node_loop_eq s body sp
      (loop_span_state s sp).instructions.length brs s.loopStack hstack
    refine ⟨rfl, rfl, ?_, ?_, ?_, ?_⟩ <;> rw [heq]
    · simp [patch_breaks_length, push_instr]
    · simp only [push_instr]
      rw [patch_breaks_get_ne _ _ _ _ (fun b hbm => by
        have := hb b (hbrs b hbm)
        omega)]
      rw [List.get?_concat_length]
    · simp only [push_instr]
      rw [patch_breaks_get _ _ _ a hmem (by
        have := hb a (hbrs a hmem)
        simp only [List.length_append, List.length_cons, List.length_nil]
        omega)]
      simp

/-- C5 witness: the loop conjunct at the one-break body `loop break
end` compiled from the initial state (the break is registered at
address 2 and patched to 4, one past the loop jump at 3), and the
elision conjunct at the initial state, whose loop stack is empty. -/
theorem C5_loop_compilation_and_break_witness :
    ((CState.new : CState).loopStack = [] ∧
      (compile_node (.operation .brk ⟨1, 1⟩) CState.new).instructions =
        (CState.new : CState).instructions) ∧
    ((compile_nodes [.operation .brk ⟨1, 6⟩]
        (loop_body_state CState.new ⟨1, 1⟩)).loopStack = (1, [2]) :: [] ∧
      2 ∈ [2] ∧
      (compile_node (.loop [.operation .brk ⟨1, 6⟩] ⟨1, 1⟩)
          CState.new).instructions.get? 2 = some (.jump 4)) := by
  refine ⟨⟨rfl, ?_⟩, rfl, by decide, ?_⟩
  · exact (C5_loop_compilation_and_break.1 CState.new ⟨1, 1⟩ rfl).1
  · have h := (C5_loop_compilation_and_break.2 CState.new
      [.operation .brk ⟨1, 6⟩] ⟨1, 1⟩ 2 1 [2] [] rfl (by decide)).2.2.2.2.2
    simpa using h

/-- Frame facts shared by C9 and C10: the string buffer never shrinks
and the recursion depth is unchanged.  RGrow holds of every
non-recursive runtime helper; run_node itself preserves the depth only
on ok paths and gets a separate statement. -/
def RGrow (st st2 : RState) : Prop :=
  st.string_buffer.length ≤ st2.string_buffer.length ∧
  st2.recursion_depth = st.recursion_depth

theorem RGrow_self (st : RState) : RGrow st st := ⟨le_rfl, rfl⟩

theorem RGrow_chain {a b c : RState} (h1 : RGrow a b) (h2 : RGrow b c) :
    RGrow a c := ⟨le_trans h1.1 h2.1, h2.2.trans h1.2⟩

theorem pop_state {st : RState} {a : Data} {st1 : RState}
    (h : st.pop = some (a, st1)) :
    st1 = { st with stack := st.stack.tail } := by
  cases hs : st.stack with
  | nil => simp [RState.pop, hs] at h
  | cons d rest =>
      simp [RState.pop, hs] at h
      simp [h.2, hs]

/-- Case characterization of push_string: fatal overflow or
allocate-and-push. -/
theorem push_string_cases (st : RState) (bytes : List Nat) :
    push_string st bytes =
      if st.string_ptr + bytes.length > STR_CAPACITY then
        (st, .fatal "string buffer overflow")
      else
        (({ st with string_buffer := st.string_buffer ++ bytes } : RState).push
          (.string st.string_ptr bytes.length), .ok) := by
  by_cases h : st.string_ptr + bytes.length > STR_CAPACITY <;>
    simp [push_string, store_string, h]

theorem depth_push_string (st : RState) (bytes : List Nat) :
    (push_string st bytes).1.recursion_depth = st.recursion_depth := by
  rw [push_string_cases]
  split_ifs <;> simp [RState.push]

theorem sb_le_push_string (st0 st : RState) (bytes : List Nat)
    (h : st0.string_buffer.length ≤ st.string_buffer.length) :
    st0.string_buffer.length ≤
      (push_string st bytes).1.string_buffer.length := by
  rw [push_string_cases]
  split_ifs <;> simp [RState.push] <;> omega

theorem run_print_grow (s : Span) (st : RState) (opName : String)
    (toStderr nl : Bool) : RGrow st (run_print s st opName toStderr nl).1 := by
  cases hs : st.stack with
  | nil => simp [run_print, RState.pop, hs, RGrow]
  | cons a rest =>
      cases a <;>
        simp [run_print, RState.pop, hs, RGrow, render_data, write_out,
          write_err] <;>
        split_ifs <;> simp

theorem unop_grow (s : Span) (x : UnaryOp) (st : RState) :
    RGrow st (unop s x st).1 := by
  cases hs : st.stack with
  | nil => simp [unop, RState.pop, hs, RGrow]
  | cons a rest =>
      cases a <;> cases x <;>
        simp [unop, RState.pop, hs, RGrow, push_int, push_bool, push_float,
          RState.push]

theorem binop_grow (s : Span) (x : BinaryOp) (st : RState) :
    RGrow st (binop s x st).1 := by
  rcases hs : st.stack with _ | ⟨a, _ | ⟨b, rest⟩⟩
  · simp [binop, RState.pop, hs, RGrow]
  · simp [binop, RState.pop, hs, RGrow]
  · cases b <;> cases a <;> cases x <;>
      (first
        | (simp [binop, RState.pop, hs, RGrow, push_int, push_bool,
            push_float, push_array, alloc_array, arrays_insert, RState.push,
            depth_push_string, sb_le_push_string]
           done)
        | (simp [binop, RState.pop, hs, push_int, push_bool, push_float,
            RState.push]
           split_ifs <;> simp [RGrow, push_int, RState.push]))

theorem builtin_grow (s : Span) (x : RBuiltin) (st : RState) :
    RGrow st (builtin s x st).1 := by
  cases x
  case println => exact run_print_grow s st "println" false true
  case eprintln => exact run_print_grow s st "eprintln" true true
  case eprint => exact run_print_grow s st "eprint" true false
  case print => exact run_print_grow s st "print" false false
  case inputln =>
      refine ⟨sb_le_push_string _ _ _ (by simp), ?_⟩
      simp [builtin, depth_push_string]
  case input =>
      refine ⟨sb_le_push_string _ _ _ (by simp), ?_⟩
      simp [builtin, depth_push_string]
  all_goals
    cases hs : st.stack with
    | nil => simp [builtin, RState.pop, hs, RGrow]
    | cons a rest =>
        cases a <;>
          (first
            | (simp [builtin, RState.pop, hs, RGrow, push_int, push_bool,
                push_float, push_nil, RState.push, depth_push_string,
                sb_le_push_string, i32_wrap]
               done)
            | (simp [builtin, RState.pop, hs, push_int, push_nil, push_float,
                RState.push]
               repeat' split <;>
                 simp [RGrow, push_int, push_nil, push_float, RState.push,
                   depth_push_string, sb_le_push_string]))

theorem run_operation_grow (op : OpKind) (s : Span) (st : RState) :
    RGrow st (run_operation op s st).1 := by
  cases op
  case add => exact binop_grow s .add st
  case sub => exact binop_grow s .sub st
  case mul => exact binop_grow s .mul st
  case div => exact binop_grow s .div st
  case mod => exact binop_grow s .mod st
  case exp => exact binop_grow s .exp st
  case gt => exact binop_grow s .gt st
  case lt => exact binop_grow s .lt st
  case eq => exact binop_grow s .eq st
  case ge => exact binop_grow s .ge st
  case le => exact binop_grow s .le st
  case ne => exact binop_grow s .ne st
  case shl => exact binop_grow s .shl st
  case shr => exact binop_grow s .shr st
  case bor => exact binop_grow s .bor st
  case band => exact binop_grow s .band st
  case bnot => exact unop_grow s .bnot st
  case swap =>
      rcases hs : st.stack with _ | ⟨a, _ | ⟨b, rest⟩⟩ <;>
        simp [run_operation, RState.pop, hs, RGrow]
  case over =>
      cases hp : st.peek 1 <;>
        simp [run_operation, hp, RGrow, RState.push]
  case drop =>
      cases hs : st.stack with
      | nil => simp [run_operation, RState.pop, hs, RGrow]
      | cons a rest => simp [run_operation, RState.pop, hs, RGrow]
  case dup =>
      cases hp : st.peek 0 <;>
        simp [run_operation, hp, RGrow, RState.push]
  case rot =>
      rcases hs : st.stack with _ | ⟨a, _ | ⟨b, _ | ⟨c, rest⟩⟩⟩ <;>
        simp [run_operation, hs, RGrow]
  case trace =>
      cases hp : st.peek 0 with
      | none => simp [run_operation, hp, RGrow]
      | some a =>
          cases a <;> simp [run_operation, hp, RGrow, write_out]
  case brk => simp [run_operation, RGrow]
  case cont => simp [run_operation, RGrow]
  case ret => simp [run_operation, RGrow]
  case tru => simp [run_operation, RGrow, push_bool, RState.push]
  case fls => simp [run_operation, RGrow, push_bool, RState.push]
  case nil => simp [run_operation, RGrow, push_nil, RState.push]
  case isNil =>
      cases hs : st.stack with
      | nil => simp [run_operation, RState.pop, hs, RGrow]
      | cons a rest =>
          cases a <;>
            simp [run_operation, RState.pop, hs, RGrow, push_bool, RState.push]
  case seqIndex =>
      rcases hs : st.stack with _ | ⟨a, _ | ⟨b, rest⟩⟩
      · simp [run_operation, RState.pop, hs, RGrow]
      · simp [run_operation, RState.pop, hs, RGrow]
      · cases a <;>
          (first
            | (simp [run_operation, RState.pop, hs, RGrow, RState.push]
               done)
            | (cases b <;>
                (first
                  | (simp [run_operation, RState.pop, hs, RGrow, RState.push]
                     done)
                  | (simp [run_operation, RState.pop, hs]
                     repeat' split <;> simp_all [RGrow, RState.push]))))
  case seqAssignAtIndex =>
      rcases hs : st.stack with _ | ⟨a, _ | ⟨b, _ | ⟨c, rest⟩⟩⟩
      · simp [run_operation, RState.pop, hs, RGrow]
      · simp [run_operation, RState.pop, hs, RGrow]
      · simp [run_operation, RState.pop, hs, RGrow]
      · cases a <;>
          (first
            | (simp [run_operation, RState.pop, hs, RGrow, RState.push,
                arrays_insert]
               done)
            | (cases c <;>
                (first
                  | (simp [run_operation, RState.pop, hs, RGrow, RState.push,
                      arrays_insert]
                     done)
                  | (simp [run_operation, RState.pop, hs]
                     repeat' split <;>
                       simp_all [RGrow, RState.push, arrays_insert]))))

theorem aslet_bind_grow (vars : List Token) (locals : List (String × Data))
    (st : RState) : RGrow st (aslet_bind vars locals st).1.1 := by
  induction vars generalizing locals st with
  | nil => exact RGrow_self st
  | cons x rest ih =>
      cases hs : st.stack with
      | nil => simp [aslet_bind, RState.pop, hs, RGrow]
      | cons d tl =>
          have := ih (alist_insert locals x.value d) { st with stack := tl }
          simpa [aslet_bind, RState.pop, hs, RGrow] using this

mutual

/-- Over any node the string buffer only grows, and an ok outcome
restores the recursion depth. -/
theorem run_node_grow : ∀ (fuel : Nat) (n : Node) (st : RState),
    st.string_buffer.length ≤ (run_node fuel n st).1.string_buffer.length ∧
    ((run_node fuel n st).2 = .ok →
      (run_node fuel n st).1.recursion_depth = st.recursion_depth)
  | 0, _, st => by simp [run_node]
  | fuel + 1, n, st => by
      cases n with
      | intLit v s => simp [run_node, push_int, RState.push]
      | floatLit v s => simp [run_node, push_float, RState.push]
      | stringLit v s =>
          simp [run_node, sb_le_push_string, depth_push_string]
      | proc name body s => simp [run_node]
      | defN name body s => simp [run_node]
      | importN path s => simp [run_node]
      | forN var body s => simp [run_node]
      | operation op s =>
          have h := run_operation_grow op s st
          constructor
          · simpa [run_node] using h.1
          · intro _
            simpa [run_node] using h.2
      | ifN i e s =>
          cases hs : st.stack with
          | nil => simp [run_node, RState.pop, hs]
          | cons a tl =>
              cases a with
              | bool b =>
                  cases b with
                  | true =>
                      have h := run_block_grow fuel i { st with stack := tl }
                      constructor
                      · simpa [run_node, RState.pop, hs] using h.1
                      · intro hok
                        simp only [run_node, RState.pop, hs] at hok ⊢
                        simpa using h.2 (by simpa using hok)
                  | false =>
                      cases e with
                      | some els =>
                          have h := run_block_grow fuel els
                            { st with stack := tl }
                          constructor
                          · simpa [run_node, RState.pop, hs] using h.1
                          · intro hok
                            simp only [run_node, RState.pop, hs] at hok ⊢
                            simpa using h.2 (by simpa using hok)
                      | none => simp [run_node, RState.pop, hs]
              | int v => simp [run_node, RState.pop, hs]
              | float v => simp [run_node, RState.pop, hs]
              | string p q => simp [run_node, RState.pop, hs]
              | nil => simp [run_node, RState.pop, hs]
              | array id => simp [run_node, RState.pop, hs]
      | loop l s =>
          have h := run_loop_grow fuel l
            { st with loop_break := false, loop_continue := false }
          rcases hr : run_loop fuel l
            { st with loop_break := false, loop_continue := false } with
            ⟨st2, status⟩
          rw [hr] at h
          cases status <;> simp_all [run_node, hr]
      | array block s =>
          have h := run_block_grow fuel block st
          rcases hr : run_block fuel block st with ⟨st1, status⟩
          rw [hr] at h
          cases status <;> simp_all [run_node, hr, arrays_insert, RState.push]
      | letN name span =>
          cases hs : st.stack with
          | nil => simp [run_node, RState.pop, hs]
          | cons a tl =>
              cases hl : st.ns.locals <;>
                simp [run_node, RState.pop, hs, hl, alist_insert]
      | asLet vars block s =>
          have hb := aslet_bind_grow vars.reverse [] st
          rcases hr : aslet_bind vars.reverse [] st with ⟨⟨st1, status⟩, lm⟩
          rw [hr] at hb
          cases status with
          | ok =>
              have h2 := run_block_grow fuel block
                { st1 with ns := { st1.ns with locals := lm :: st1.ns.locals } }
              rcases hr2 : run_block fuel block
                { st1 with ns := { st1.ns with locals := lm :: st1.ns.locals } }
                with ⟨st3, status2⟩
              rw [hr2] at h2
              obtain ⟨hb1, hb2⟩ := hb
              cases status2 with
              | ok =>
                  obtain ⟨h21, h22⟩ := h2
                  cases hl3 : st3.ns.locals <;>
                    simp_all [run_node, hr, hr2] <;> omega
              | err e => simp_all [run_node, hr, hr2] <;> omega
              | panicked m => simp_all [run_node, hr, hr2] <;> omega
              | fatal m => simp_all [run_node, hr, hr2] <;> omega
              | exited c => simp_all [run_node, hr, hr2] <;> omega
              | fuelOut => simp_all [run_node, hr, hr2] <;> omega
          | err e => simp_all [run_node, hr, RGrow]
          | panicked m => simp_all [run_node, hr, RGrow]
          | fatal m => simp_all [run_node, hr, RGrow]
          | exited c => simp_all [run_node, hr, RGrow]
          | fuelOut => simp_all [run_node, hr, RGrow]
      | symbol w s =>
          cases hb : rt_builtin_of_name w with
          | some b =>
              have h := builtin_grow s b st
              constructor
              · simpa [run_node, hb] using h.1
              · intro _
                simpa [run_node, hb] using h.2
          | none =>
              cases hp : alist_get st.ns.procs w with
              | some p =>
                  by_cases hd : st.recursion_depth + 1 ≥ MAX_RECURSION_DEPTH
                  · simp [run_node, hb, hp, hd]
                  · simp only [run_node, hb, hp]
                    rw [if_neg hd]
                    have h := run_proc_body_grow fuel p.body
                      { st with proc_return := false,
                                filename := p.span.filename,
                                recursion_depth := st.recursion_depth + 1 }
                    rcases hr : run_proc_body fuel p.body
                      { st with proc_return := false,
                                filename := p.span.filename,
                                recursion_depth := st.recursion_depth + 1 } with
                      ⟨st3, status⟩
                    rw [hr] at h
                    cases status <;> simp_all <;> omega
              | none =>
                  cases hd2 : alist_get st.ns.defs w with
                  | some d => simp [run_node, hb, hp, hd2, RState.push]
                  | none =>
                      cases hl : st.ns.locals with
                      | nil =>
                          cases hg : alist_get st.ns.globals w <;>
                            simp [run_node, hb, hp, hd2, hl, hg, RState.push]
                      | cons scope restSc =>
                          cases hv : alist_get scope w <;>
                            simp [run_node, hb, hp, hd2, hl, hv, RState.push]

/-- run_block only grows the string buffer; ok restores the depth. -/
theorem run_block_grow : ∀ (fuel : Nat) (l : List Node) (st : RState),
    st.string_buffer.length ≤ (run_block fuel l st).1.string_buffer.length ∧
    ((run_block fuel l st).2 = .ok →
      (run_block fuel l st).1.recursion_depth = st.recursion_depth)
  | 0, _, st => by simp [run_block]
  | _ + 1, [], st => by simp [run_block]
  | fuel + 1, n :: rest, st => by
      have h1 := run_node_grow fuel n st
      rcases hr : run_node fuel n st with ⟨st1, status⟩
      rw [hr] at h1
      cases status with
      | ok =>
          by_cases hf : st1.loop_continue || st1.loop_break || st1.proc_return
          · simp_all [run_block, hr, hf]
          · have h2 := run_block_grow fuel rest st1
            rcases hr2 : run_block fuel rest st1 with ⟨st2, status2⟩
            rw [hr2] at h2
            cases status2 <;> simp_all [run_block, hr, hf, hr2] <;> omega
      | err e => simp_all [run_block, hr]
      | panicked m => simp_all [run_block, hr]
      | fatal m => simp_all [run_block, hr]
      | exited c => simp_all [run_block, hr]
      | fuelOut => simp_all [run_block, hr]

/-- One pass of the loop body only grows the string buffer; ok restores
the depth. -/
theorem run_loop_nodes_grow : ∀ (fuel : Nat) (l : List Node) (st : RState),
    st.string_buffer.length ≤
      (run_loop_nodes fuel l st).1.string_buffer.length ∧
    ((run_loop_nodes fuel l st).2.1 = .ok →
      (run_loop_nodes fuel l st).1.recursion_depth = st.recursion_depth)
  | 0, _, st => by simp [run_loop_nodes]
  | _ + 1, [], st => by simp [run_loop_nodes]
  | fuel + 1, n :: rest, st => by
      have h1 := run_node_grow fuel n st
      rcases hr : run_node fuel n st with ⟨st1, status⟩
      rw [hr] at h1
      cases status with
      | ok =>
          by_cases hf : st1.loop_break
          · simp_all [run_loop_nodes, hr, hf]
          · have h2 := run_loop_nodes_grow fuel rest st1
            rcases hr2 : run_loop_nodes fuel rest st1 with ⟨st2, status2, br⟩
            rw [hr2] at h2
            cases status2 <;> simp_all [run_loop_nodes, hr, hf, hr2] <;> omega
      | err e => simp_all [run_loop_nodes, hr]
      | panicked m => simp_all [run_loop_nodes, hr]
      | fatal m => simp_all [run_loop_nodes, hr]
      | exited c => simp_all [run_loop_nodes, hr]
      | fuelOut => simp_all [run_loop_nodes, hr]

/-- The labelled loop only grows the string buffer; ok restores the
depth. -/
theorem run_loop_grow : ∀ (fuel : Nat) (l : List Node) (st : RState),
    st.string_buffer.length ≤ (run_loop fuel l st).1.string_buffer.length ∧
    ((run_loop fuel l st).2 = .ok →
      (run_loop fuel l st).1.recursion_depth = st.recursion_depth)
  | 0, _, st => by simp [run_loop]
  | fuel + 1, l, st => by
      have h1 := run_loop_nodes_grow fuel l st
      rcases hr : run_loop_nodes fuel l st with ⟨st1, status, br⟩
      rw [hr] at h1
      cases status with
      | ok =>
          cases br with
          | true => simp_all [run_loop, hr]
          | false =>
              have h2 := run_loop_grow fuel l st1
              rcases hr2 : run_loop fuel l st1 with ⟨st2, status2⟩
              rw [hr2] at h2
              cases status2 <;> simp_all [run_loop, hr, hr2] <;> omega
      | err e => simp_all [run_loop, hr]
      | panicked m => simp_all [run_loop, hr]
      | fatal m => simp_all [run_loop, hr]
      | exited c => simp_all [run_loop, hr]
      | fuelOut => simp_all [run_loop, hr]

/-- A procedure body only grows the string buffer; ok restores the
depth. -/
theorem run_proc_body_grow : ∀ (fuel : Nat) (l : List Node) (st : RState),
    st.string_buffer.length ≤
      (run_proc_body fuel l st).1.string_buffer.length ∧
    ((run_proc_body fuel l st).2 = .ok →
      (run_proc_body fuel l st).1.recursion_depth = st.recursion_depth)
  | 0, _, st => by simp [run_proc_body]
  | _ + 1, [], st => by simp [run_proc_body]
  | fuel + 1, n :: rest, st => by
      have h1 := run_node_grow fuel n st
      rcases hr : run_node fuel n st with ⟨st1, status⟩
      rw [hr] at h1
      cases status with
      | ok =>
          by_cases hf : st1.proc_return
          · simp_all [run_proc_body, hr, hf]
          · have h2 := run_proc_body_grow fuel rest st1
            rcases hr2 : run_proc_body fuel rest st1 with ⟨st2, status2⟩
            rw [hr2] at h2
            cases status2 <;> simp_all [run_proc_body, hr, hf, hr2] <;> omega
      | err e => simp_all [run_proc_body, hr]
      | panicked m => simp_all [run_proc_body, hr]
      | fatal m => simp_all [run_proc_body, hr]
      | exited c => simp_all [run_proc_body, hr]
      | fuelOut => simp_all [run_proc_body, hr]

end

/-- C9: MAX_RECURSION_DEPTH is 256; a procedure invocation whose
incremented counter reaches it returns RecursionDepthOverflow without
running the body (the result is exactly the pre-call state with the
incremented counter, the procedure's filename and a cleared
proc_return flag — stack and buffers untouched); and every run_node
that finishes ok — in particular a procedure call that completes —
restores the recursion depth it started with. -/
theorem C9_recursion_depth_bound :
    MAX_RECURSION_DEPTH = 256 ∧
    (∀ (fuel : Nat) (w : String) (s : Span) (st : RState) (p : Procedure),
      rt_builtin_of_name w = none →
      alist_get st.ns.procs w = some p →
      st.recursion_depth + 1 ≥ MAX_RECURSION_DEPTH →
      run_node (fuel + 1) (.symbol w s) st =
        ({ st with proc_return := false,
                   filename := p.span.filename,
                   recursion_depth := st.recursion_depth + 1 },
          .err (.recursionDepthOverflow p.span))) ∧
    (∀ (fuel : Nat) (n : Node) (st : RState),
      (run_node fuel n st).2 = .ok →
      (run_node fuel n st).1.recursion_depth = st.recursion_depth) := by
  refine ⟨rfl, ?_, ?_⟩
  · intro fuel w s st p hb hp hd
    simp only [run_node, hb, hp]
    rw [if_pos hd]
  · intro fuel n st hok
    exact (run_node_grow fuel n st).2 hok

/-- A runtime state one call short of the depth limit with one
registered procedure, exercising the C9 overflow path. -/
def c9_state : RState :=
  { RState.new "m" with
      recursion_depth := 255,
      ns := { procs := [("f", { body := [], span := ⟨"m", 1, 1⟩ })],
              defs := [], globals := [], locals := [] } }

theorem C9_recursion_depth_bound_witness :
    (rt_builtin_of_name "f" = none ∧
      alist_get c9_state.ns.procs "f" =
        some { body := [], span := ⟨"m", 1, 1⟩ } ∧
      c9_state.recursion_depth + 1 ≥ MAX_RECURSION_DEPTH ∧
      run_node 1 (.symbol "f" ⟨1, 1⟩) c9_state =
        ({ c9_state with proc_return := false, filename := "m",
                         recursion_depth := 256 },
          .err (.recursionDepthOverflow ⟨"m", 1, 1⟩))) ∧
    ((run_node 1 (.intLit 1 ⟨1, 1⟩) (RState.new "m")).2 = .ok ∧
      (run_node 1 (.intLit 1 ⟨1, 1⟩) (RState.new "m")).1.recursion_depth =
        (RState.new "m").recursion_depth) := by
  have hget : alist_get c9_state.ns.procs "f" =
      some { body := [], span := ⟨"m", 1, 1⟩ } := by
    simp [c9_state, alist_get, RState.new]
  refine ⟨⟨rfl, hget, by decide, ?_⟩, ?_, ?_⟩
  · exact C9_recursion_depth_bound.2.1 0 "f" ⟨1, 1⟩ c9_state
      { body := [], span := ⟨"m", 1, 1⟩ } rfl hget (by decide)
  · simp [run_node, push_int, RState.push]
  · exact C9_recursion_depth_bound.2.2 1 (.intLit 1 ⟨1, 1⟩) (RState.new "m")
      (by simp [run_node, push_int, RState.push])

/-- C10: STR_CAPACITY is 102400 bytes; store_string bump-allocates at
the write pointer (the length of the written prefix) and, when the end
of the allocation would exceed the cap, yields the fatal "string buffer
overflow" outcome (process termination, not a catchable RuntimeError)
with the buffer unchanged; otherwise it appends exactly the bytes.  A
string literal runs through push_string (hence store_string), and over
any node the write pointer never decreases — the buffer is never
reclaimed. -/
theorem C10_string_buffer_cap :
    STR_CAPACITY = 102400 ∧
    (∀ (st : RState) (bytes : List Nat),
      st.string_ptr + bytes.length > STR_CAPACITY →
      store_string st bytes =
        ((st, .fatal "string buffer overflow"), st.string_ptr,
          bytes.length)) ∧
    (∀ (st : RState) (bytes : List Nat),
      ¬ st.string_ptr + bytes.length > STR_CAPACITY →
      store_string st bytes =
        (({ st with string_buffer := st.string_buffer ++ bytes }, .ok),
          st.string_ptr, bytes.length)) ∧
    (∀ (fuel : Nat) (v : String) (s : Span) (st : RState),
      run_node (fuel + 1) (.stringLit v s) st =
        push_string st (str_bytes v)) ∧
    (∀ (fuel : Nat) (n : Node) (st : RState),
      st.string_ptr ≤ (run_node fuel n st).1.string_ptr) := by
  refine ⟨rfl, ?_, ?_, ?_, ?_⟩
  · intro st bytes h
    simp [store_string, h]
  · intro st bytes h
    simp [store_string, h]
  · intro fuel v s st
    simp [run_node]
  · intro fuel n st
    exact (run_node_grow fuel n st).1

/-- A runtime state whose string buffer is full to the cap. -/
def c10_big : RState :=
  { RState.new "m" with string_buffer := List.replicate 102400 0 }

theorem C10_string_buffer_cap_witness :
    (c10_big.string_ptr + [0].length > STR_CAPACITY ∧
      store_string c10_big [0] =
        ((c10_big, .fatal "string buffer overflow"), c10_big.string_ptr,
          [0].length)) ∧
    (¬ (RState.new "m").string_ptr + [65].length > STR_CAPACITY ∧
      store_string (RState.new "m") [65] =
        ((({ RState.new "m" with
              string_buffer := (RState.new "m").string_buffer ++ [65] }),
            .ok),
          (RState.new "m").string_ptr, [65].length)) ∧
    run_node 1 (.stringLit "a" ⟨1, 1⟩) (RState.new "m") =
      push_string (RState.new "m") (str_bytes "a") ∧
    (RState.new "m").string_ptr ≤
      (run_node 1 (.intLit 1 ⟨1, 1⟩) (RState.new "m")).1.string_ptr := by
  have hbig : c10_big.string_ptr + [0].length > STR_CAPACITY := by
    have hlen : c10_big.string_ptr = 102400 := by
      show (List.replicate 102400 (0 : Nat)).length = 102400
      rw [List.length_replicate]
    rw [hlen]
    decide
  have hsmall : ¬ (RState.new "m").string_ptr + [65].length > STR_CAPACITY := by
    simp [RState.new, RState.string_ptr, STR_CAPACITY]
  exact ⟨⟨hbig, C10_string_buffer_cap.2.1 c10_big [0] hbig⟩,
    ⟨hsmall, C10_string_buffer_cap.2.2.1 (RState.new "m") [65] hsmall⟩,
    C10_string_buffer_cap.2.2.2.1 0 "a" ⟨1, 1⟩ (RState.new "m"),
    C10_string_buffer_cap.2.2.2.2 1 (.intLit 1 ⟨1, 1⟩) (RState.new "m")⟩

end Pile
